import Mathlib

/-!
# go-geoguard: verification of the risk-evaluation pipeline

Shallow embedding of the go-geoguard library (package `engine`, `rules`,
`models`, `geoip`) together with the parts of Go's standard `net` package
that the library's privacy transform relies on (`net.ParseIP`, `IP.To4`,
`IP.Mask`, `IP.String`).

Modelling conventions:
* Go strings are Lean `String`s (the inputs of interest are ASCII, so byte
  indexing coincides with `String.data` indexing).
* Go `float64` values (coordinates, speeds, timestamps) are modelled as real
  numbers; `time.Time` is modelled as a real number measured in hours, so
  `t1.Sub(t2).Hours()` becomes `t1 - t2`.
* A Go `(T, error)` return is `Except String T`; a nilable pointer is
  `Option`.
* A Go `map[string]bool` used as a set is modelled as its key list, with
  insertion that avoids duplicates.
-/

set_option maxRecDepth 8000

open scoped Classical

namespace GoGeoGuard

/-! ## Go `net` package model

`net.ParseIP` (through `netip.ParseAddr`) classifies the input by its first
`'.'`, `':'` or `'%'` byte, parses dotted-quad IPv4 (1-3 digit fields, no
leading zeros, values ≤ 255) or RFC-4291 IPv6 text (1-4 hex digit groups,
one optional `::`, optional embedded IPv4 in the last 32 bits), and yields
the 16-byte form (IPv4 becomes the IPv4-mapped `::ffff:a.b.c.d` bytes). -/

/-- Decimal digit character, `n < 10`. -/
def digitChar (n : Nat) : Char :=
  Char.ofNat (Char.toNat '0' + n)

/-- Lowercase hexadecimal digit character, `n < 16` (Go's `hexDigit` table). -/
def hexDigitChar (n : Nat) : Char :=
  if n < 10 then Char.ofNat (Char.toNat '0' + n)
  else Char.ofNat (Char.toNat 'a' + (n - 10))

/-- Value of a decimal digit character (Go accepts only `'0'..'9'`). -/
def digitVal (c : Char) : Option Nat :=
  if '0' ≤ c ∧ c ≤ '9' then some (c.toNat - Char.toNat '0') else none

/-- Value of a hexadecimal digit character (upper or lower case). -/
def hexDigitValue (c : Char) : Option Nat :=
  if '0' ≤ c ∧ c ≤ '9' then some (c.toNat - Char.toNat '0')
  else if 'a' ≤ c ∧ c ≤ 'f' then some (c.toNat - Char.toNat 'a' + 10)
  else if 'A' ≤ c ∧ c ≤ 'F' then some (c.toNat - Char.toNat 'A' + 10)
  else none

/-- Go `net`'s `ubtoa`: minimal decimal text of a byte value `v ≤ 255`. -/
def decOctet (v : Nat) : List Char :=
  if v < 10 then [digitChar v]
  else if v < 100 then [digitChar (v / 10), digitChar (v % 10)]
  else [digitChar (v / 100), digitChar (v / 10 % 10), digitChar (v % 10)]

/-- Go `net`'s `appendHex` restricted to 16-bit group values: minimal
lowercase hex text (Go prints from the first nonzero nibble, `"0"` for 0). -/
def hexChars (g : Nat) : List Char :=
  if g < 16 then [hexDigitChar g]
  else if g < 256 then [hexDigitChar (g / 16), hexDigitChar (g % 16)]
  else if g < 4096 then
    [hexDigitChar (g / 256), hexDigitChar (g / 16 % 16), hexDigitChar (g % 16)]
  else
    [hexDigitChar (g / 4096), hexDigitChar (g / 256 % 16),
      hexDigitChar (g / 16 % 16), hexDigitChar (g % 16)]

/-- The leading run of hex-digit characters (their values) and the rest. -/
def takeHexDigits : List Char → List Nat × List Char
  | [] => ([], [])
  | c :: t =>
    match hexDigitValue c with
    | some d =>
      let r := takeHexDigits t
      (d :: r.1, r.2)
    | none => ([], c :: t)

/-- Character loop of `netip.parseIPv4Fields`: `csl` remaining characters,
`val`/`digLen` value and digit count of the current field, `fields` the
completed fields.  Rejects leading zeros, fields over 255, empty fields,
trailing dots and more than four fields. -/
def parseIPv4Loop : List Char → Nat → Nat → List Nat → Option (List Nat)
  | [], val, _, fields =>
    if fields.length = 3 then some (fields ++ [val]) else none
  | c :: rest, val, digLen, fields =>
    match digitVal c with
    | some d =>
      if digLen = 1 ∧ val = 0 then none
      else
        let v := val * 10 + d
        if 255 < v then none
        else parseIPv4Loop rest v (digLen + 1) fields
    | none =>
      if c = '.' then
        if digLen = 0 then none
        else if rest = [] then none
        else if fields.length = 3 then none
        else parseIPv4Loop rest 0 0 (fields ++ [val])
      else none

/-- `netip.parseIPv4`: the four byte values of a dotted-quad IPv4 string. -/
def parseIPv4 (s : List Char) : Option (List Nat) :=
  parseIPv4Loop s 0 0 []

/-- Main loop of `netip.parseIPv6`.  `pre` holds the bytes written so far,
`ell` the byte index of the `::` if one was seen.  Each iteration reads one
1-4 hex digit group (or an embedded IPv4 replacing the final 32 bits) and
the following separator.  The fuel only bounds the eight possible
iterations (`pre` grows by at least two bytes per recursive call, and the
loop stops at 16 bytes, so fuel 9 is never exhausted). -/
def parseV6Loop : Nat → List Nat → Option Nat → List Char → Option (List Nat × Option Nat)
  | 0, _, _, _ => none
  | fuel + 1, pre, ell, s =>
    if 16 ≤ pre.length then
      if s = [] then some (pre, ell) else none
    else
      let td := takeHexDigits s
      if td.1 = [] then none
      else if 4 < td.1.length then none
      else if td.2.head? = some '.' then
        if ell = none ∧ pre.length ≠ 12 then none
        else if 16 < pre.length + 4 then none
        else
          match parseIPv4 s with
          | none => none
          | some b4 => some (pre ++ b4, ell)
      else
        let acc := td.1.foldl (fun a d => a * 16 + d) 0
        let pre2 := pre ++ [acc / 256, acc % 256]
        if td.2 = [] then some (pre2, ell)
        else if td.2.head? = some ':' then
          if td.2.drop 1 = [] then none
          else if (td.2.drop 1).head? = some ':' then
            if ell.isSome then none
            else if td.2.drop 2 = [] then some (pre2, some pre2.length)
            else parseV6Loop fuel pre2 (some pre2.length) (td.2.drop 2)
          else parseV6Loop fuel pre2 ell (td.2.drop 1)
        else none

/-- End of `netip.parseIPv6`: expand the `::` (it must stand for at least
one zero group) or require exactly 16 bytes. -/
def finishV6 : Option (List Nat × Option Nat) → Option (List Nat)
  | none => none
  | some (pre, ell) =>
    if pre.length < 16 then
      match ell with
      | none => none
      | some e => some (pre.take e ++ List.replicate (16 - pre.length) 0 ++ pre.drop e)
    else
      match ell with
      | none => some pre
      | some _ => none

/-- `netip.parseIPv6` (zones rejected by `net.ParseIP`, so not modelled):
the 16 byte values of an IPv6 string. -/
def parseIPv6 (s : List Char) : Option (List Nat) :=
  if 2 ≤ s.length ∧ s.take 2 = [':', ':'] then
    if s.drop 2 = [] then some (List.replicate 16 0)
    else finishV6 (parseV6Loop 9 [] (some 0) (s.drop 2))
  else finishV6 (parseV6Loop 9 [] none s)

/-- `netip.ParseAddr`'s dispatch: the first `'.'` or `':'` decides between
IPv4 and IPv6; a `'%'` before either (a zone) makes the input unparseable. -/
def classifyIP : List Char → Option Bool
  | [] => none
  | c :: t =>
    if c = '.' then some true
    else if c = ':' then some false
    else if c = '%' then none
    else classifyIP t

/-- The 16-byte IPv4-mapped form `::ffff:a.b.c.d` of four IPv4 bytes. -/
def v4InV6 (b4 : List Nat) : List Nat :=
  List.replicate 10 0 ++ [255, 255] ++ b4

/-- `net.ParseIP`: the 16-byte form of the address, or `none` when the
string is not an IP address. -/
def parseIP (s : String) : Option (List Nat) :=
  match classifyIP s.data with
  | some true => (parseIPv4 s.data).map v4InV6
  | some false => parseIPv6 s.data
  | none => none

/-- `net.IP.To4`: the four IPv4 bytes when the address is IPv4 or
IPv4-mapped, else `none`. -/
def to4 (ip : List Nat) : Option (List Nat) :=
  if ip.length = 4 then some ip
  else if ip.length = 16 ∧ ip.take 12 = List.replicate 10 0 ++ [255, 255] then
    some (ip.drop 12)
  else none

/-- The eight 16-bit group values of a 16-byte address. -/
def bytesToGroups : List Nat → List Nat
  | b0 :: b1 :: t => (b0 * 256 + b1) :: bytesToGroups t
  | _ => []

/-- Length of the leading run of zeros of a list. -/
def zeroRunLen : List Nat → Nat
  | [] => 0
  | g :: t => if g = 0 then zeroRunLen t + 1 else 0

/-- The zero-run scan of Go `net.IP.String`: the first longest run of zero
groups, as `(start, end)` group indices; `(0, 0)` when every run is empty.
Go's loop restarts the scan after a run it recorded, but positions inside a
recorded run only start strictly shorter runs and the comparison is strict,
so scanning every position is equivalent. -/
def bestZeroRunAux : List Nat → Nat → Nat × Nat → Nat × Nat
  | [], _, best => best
  | g :: t, i, best =>
    let j := i + zeroRunLen (g :: t)
    let best2 := if i < j ∧ best.2 - best.1 < j - i then (i, j) else best
    bestZeroRunAux t (i + 1) best2

/-- Hex groups joined by `':'`. -/
def intercalateColon : List (List Char) → List Char
  | [] => []
  | [x] => x
  | x :: y :: t => x ++ ':' :: intercalateColon (y :: t)

/-- Go `net.IP.String` for a (non IPv4-mapped) 16-byte address: hex groups
joined by colons, the first longest run of two or more zero groups replaced
by `::`. -/
def ipv6String (bs : List Nat) : String :=
  let gs := bytesToGroups bs
  let best := bestZeroRunAux gs 0 (0, 0)
  if best.2 - best.1 ≤ 1 then String.mk (intercalateColon (gs.map hexChars))
  else
    String.mk (intercalateColon ((gs.take best.1).map hexChars) ++
      ':' :: ':' :: intercalateColon ((gs.drop best.2).map hexChars))

/-- Go `net.IP.String` for a 4-byte address: dotted decimal. -/
def ipv4String (bs : List Nat) : String :=
  match bs with
  | [a, b, c, d] =>
    String.mk (decOctet a ++ ('.' :: (decOctet b ++ ('.' :: (decOctet c ++ ('.' :: decOctet d))))))
  | _ => ""

/-- `rules.MaskIP` (pkg/geoip and pkg/rules): parse, then mask IPv4 to /24
(`To4` succeeds: zero the last byte, Go `Mask(CIDRMask(24, 32))`) or IPv6
to /64 (zero the last eight bytes, Go `Mask(CIDRMask(64, 128))`), and print
with the prefix-length suffix; unparseable input yields `""`.  Go's final
`return ""` after a failed `To16` is unreachable for a parsed address and
is not modelled. -/
def MaskIP (ipStr : String) : String :=
  match parseIP ipStr with
  | none => ""
  | some ip =>
    match to4 ip with
    | some q => ipv4String (q.take 3 ++ [0]) ++ "/24"
    | none => ipv6String (ip.take 8 ++ List.replicate 8 0) ++ "/64"

/-- `rules.maskIPToPrefix` (pkg/rules/open_proxy.go): its body is
character-for-character the body of `MaskIP`, so it is defined as equal. -/
def maskIPToCIDR (ipStr : String) : String :=
  MaskIP ipStr

/-- The address portion of a CIDR-style string: the text before the `'/'`. -/
def addrPortion (s : String) : String :=
  String.mk (s.data.takeWhile (fun c => c ≠ '/'))

/-- The character list of the dotted-quad printing of four octets
(the data of `ipv4String [a, b, c, d]`). -/
def v4Chars (a b c d : Nat) : List Char :=
  decOctet a ++ ('.' :: (decOctet b ++ ('.' :: (decOctet c ++ ('.' :: decOctet d)))))

/-- The 16 bytes of a /64-masked IPv6 address whose four leading 16-bit
groups are `g0 g1 g2 g3`. -/
def v6MaskedBytes (g0 g1 g2 g3 : Nat) : List Nat :=
  [g0 / 256, g0 % 256, g1 / 256, g1 % 256, g2 / 256, g2 % 256, g3 / 256, g3 % 256] ++
    List.replicate 8 0

/-! ## Go string helpers used by the rules -/

/-- The white-space characters `strings.TrimSpace` / `strings.Fields` use
(the ASCII ones; the inputs of interest contain no Unicode spaces). -/
def isGoSpace (c : Char) : Bool :=
  c = ' ' ∨ c = '\t' ∨ c = '\n' ∨ c = Char.ofNat 11 ∨ c = Char.ofNat 12 ∨ c = '\r'

/-- `strings.TrimSpace`. -/
def goTrimSpace (s : String) : String :=
  String.mk (((s.data.dropWhile isGoSpace).reverse.dropWhile isGoSpace).reverse)

/-- The first entry of `strings.Fields s` for a string with no leading
space: its longest non-space first run. -/
def goFirstField (s : String) : String :=
  String.mk (s.data.takeWhile (fun c => ¬ isGoSpace c))

/-- `strings.Contains s "/"`. -/
def containsSlash (s : String) : Bool :=
  s.data.contains '/'

/-- `strings.HasPrefix s "#"`. -/
def startsWithHash (s : String) : Bool :=
  s.data.head? = some '#'

/-- `strings.ToLower` (the inputs of interest are ASCII, where Go's Unicode
lowering agrees with `Char.toLower`). -/
def goToLower (s : String) : String :=
  String.mk (s.data.map Char.toLower)

/-! ## Data model (pkg/models, pkg/geoip, pkg/rules, pkg/engine) -/

/-- `models.LoginRecord`: the privacy-safe persisted record.  The Go field
`MaskedIPPrefix` is named `MaskedIP` here (tooling constraint on the
suffix); `InputLanguage` is a field only the `CountryMismatchRule` reads,
and the engine's record literal does not set it, so it carries Go's zero
value `""` in every engine-built record. -/
structure LoginRecord where
  UserID : String
  Timestamp : ℝ
  MaskedIP : String
  CountryCode : String
  CityGeonameID : Nat
  ASN : Nat
  OrgName : String
  FingerprintHash : String
  IPTimezone : String
  ClientTimezone : String
  InputLanguage : String := ""

/-- `geoip.GeoData`; the defaults are Go's zero values, so `{}` is the
`&geoip.GeoData{}` the engine falls back to.  `Timezone` is the field the
engine reads into `IPTimezone`. -/
structure GeoData where
  CountryCode : String := ""
  CityName : String := ""
  CityGeonameID : Nat := 0
  Latitude : ℝ := 0
  Longitude : ℝ := 0
  Timezone : String := ""

/-- `rules.GeoContext`: the ephemeral coordinate bundle. -/
structure GeoContext where
  IPLatitude : ℝ
  IPLongitude : ℝ
  DeviceLatitude : ℝ
  DeviceLongitude : ℝ
  PreviousIPLatitude : ℝ := 0
  PreviousIPLongitude : ℝ := 0

/-- `models.Violation`. -/
structure Violation where
  RuleName : String
  RiskScore : Int
  Reason : String
deriving DecidableEq

/-- `models.RiskResult`. -/
structure RiskResult where
  TotalRiskScore : Int
  Violations : List Violation
  IsBlocked : Bool
deriving DecidableEq

/-- `engine.Input`. -/
structure Input where
  UserID : String
  IPAddress : String
  Latitude : ℝ
  Longitude : ℝ
  UserAgent : String
  AcceptLanguage : String
  ClientTimezone : String

/-- A configured rule as the engine sees it: the `rules.Rule` interface
(`Name`, `Description`, `Validate`), plus `ValidateWithGeo = some f`
exactly when the dynamic type also satisfies `rules.EphemeralGeoRule`
(whose contract is `Rule` extended by `ValidateWithGeo`). -/
structure Rule where
  Name : String
  Description : String
  Validate : LoginRecord → Option LoginRecord → Except String Int
  ValidateWithGeo : Option (GeoContext → LoginRecord → Option LoginRecord → Except String Int)

/-- The engine's collaborators: the geoip service (`GetLocation`,
`GetASN`), the history store (`GetLastRecord`), the SHA-256 hex digest that
`GenerateFingerprintHash` applies, and `time.Now()` (in hours). -/
structure Env where
  getLocation : String → Except String GeoData
  getASN : String → Except String (Nat × String)
  getLastRecord : String → Except String (Option LoginRecord)
  digest : String → String
  now : ℝ

/-- `engine.GeoGuard`. -/
structure GeoGuard where
  env : Env
  rules : List Rule

/-- `engine.GeoGuard.AddRule`: appends to the rule list. -/
def GeoGuard.AddRule (g : GeoGuard) (r : Rule) : GeoGuard :=
  { g with rules := g.rules ++ [r] }

/-- `rules.GenerateFingerprintHash`, parametric in the digest (the Go code
applies hex-encoded SHA-256; the claims about it hold for every digest):
digest of `userAgent + "|" + language`. -/
def GenerateFingerprintHash (digest : String → String) (userAgent language : String) : String :=
  digest (userAgent ++ "|" ++ language)

/-! ## Geometry (pkg/rules/geo.go) -/

/-- `math.Atan2`. -/
noncomputable def atan2 (y x : ℝ) : ℝ :=
  if 0 < x then Real.arctan (y / x)
  else if x < 0 ∧ 0 ≤ y then Real.arctan (y / x) + Real.pi
  else if x < 0 then Real.arctan (y / x) - Real.pi
  else if 0 < y then Real.pi / 2
  else if y < 0 then -(Real.pi / 2)
  else 0

/-- `rules.haversine`: great-circle distance in km, Earth radius 6371 km. -/
noncomputable def haversine (lat1 lon1 lat2 lon2 : ℝ) : ℝ :=
  let earthRadiusKm : ℝ := 6371
  let dLat := (lat2 - lat1) * (Real.pi / 180)
  let dLon := (lon2 - lon1) * (Real.pi / 180)
  let lat1r := lat1 * (Real.pi / 180)
  let lat2r := lat2 * (Real.pi / 180)
  let a := Real.sin (dLat / 2) * Real.sin (dLat / 2) +
    Real.sin (dLon / 2) * Real.sin (dLon / 2) * Real.cos lat1r * Real.cos lat2r
  let c := 2 * atan2 (Real.sqrt a) (Real.sqrt (1 - a))
  earthRadiusKm * c

/-! ## Built-in rules -/

/-- `rules.CountryMismatchRule`. -/
structure CountryMismatchRule where
  RiskScore : Int

/-- `CountryMismatchRule.Validate` (pkg/rules/country_mismatch.go): skips
when country code or browser language is empty or the language is shorter
than two bytes, then triggers only on the two hardcoded country/language
pairs (`de`/`tr` and `ru`-or-`cn`/`en`).  It never reads `last`. -/
def countryMismatchValidate (c : CountryMismatchRule) (input : LoginRecord)
    (_last : Option LoginRecord) : Except String Int :=
  if input.CountryCode = "" ∨ input.InputLanguage = "" then .ok 0
  else if input.InputLanguage.data.length < 2 then .ok 0
  else
    let lang := goToLower (String.mk (input.InputLanguage.data.take 2))
    let country := goToLower input.CountryCode
    if country = "de" ∧ lang = "tr" then .ok c.RiskScore
    else if (country = "ru" ∨ country = "cn") ∧ lang = "en" then .ok c.RiskScore
    else .ok 0

/-- `rules.VelocityRule`. -/
structure VelocityRule where
  MaxSpeedKmh : ℝ
  RiskScore : Int

/-- `VelocityRule.ValidateWithGeo` (pkg/rules/velocity.go). -/
noncomputable def velocityValidateWithGeo (v : VelocityRule) (ctx : GeoContext)
    (input : LoginRecord) (lastRecord : Option LoginRecord) : Except String Int :=
  match lastRecord with
  | none => .ok 0
  | some lr =>
    if ctx.IPLatitude = 0 ∧ ctx.IPLongitude = 0 then .ok 0
    else if ctx.PreviousIPLatitude = 0 ∧ ctx.PreviousIPLongitude = 0 then .ok 0
    else
      let distance := haversine ctx.IPLatitude ctx.IPLongitude
        ctx.PreviousIPLatitude ctx.PreviousIPLongitude
      let duration := input.Timestamp - lr.Timestamp
      if duration ≤ 0 then
        if 10 < distance then .ok v.RiskScore else .ok 0
      else if v.MaxSpeedKmh < distance / duration then .ok v.RiskScore
      else .ok 0

/-- `rules.GeofencingRule`. -/
structure GeofencingRule where
  CenterLat : ℝ
  CenterLon : ℝ
  RadiusKm : ℝ
  RiskScore : Int

/-- `GeofencingRule.ValidateWithGeo` (pkg/rules/geofencing.go). -/
noncomputable def geofencingValidateWithGeo (g : GeofencingRule) (ctx : GeoContext)
    (_input : LoginRecord) (_lastRecord : Option LoginRecord) : Except String Int :=
  if ctx.IPLatitude = 0 ∧ ctx.IPLongitude = 0 then .ok 0
  else
    let distance := haversine g.CenterLat g.CenterLon ctx.IPLatitude ctx.IPLongitude
    if g.RadiusKm < distance then .ok g.RiskScore
    else .ok 0

/-- `rules.OpenProxyRule`: the Go `map[string]bool` prefix set is modelled
by its key list (`ProxyKeys`, Go `ProxyPrefixes`). -/
structure OpenProxyRule where
  ProxyKeys : List String
  RiskScore : Int

/-- Set insertion for the modelled `map[string]bool`. -/
def insertKey (l : List String) (k : String) : List String :=
  if k ∈ l then l else l ++ [k]

/-- `rules.NewOpenProxyRule`: every listed IP is masked before entering
the set; unparseable entries are dropped. -/
def NewOpenProxyRule (proxyIPs : List String) (score : Int) : OpenProxyRule :=
  { ProxyKeys := proxyIPs.foldl (fun set ip =>
      if maskIPToCIDR ip = "" then set else insertKey set (maskIPToCIDR ip)) []
    RiskScore := score }

/-- One line of `rules.LoadOpenProxyRule`'s scanner loop: trim, skip blank
and `#` lines, take the first whitespace-separated field; a field already
containing `/` is inserted verbatim ("already in CIDR format"), otherwise
the field is masked and dropped when unparseable. -/
def loadLine (set : List String) (line : String) : List String :=
  if goTrimSpace line = "" ∨ startsWithHash (goTrimSpace line) then set
  else if goFirstField (goTrimSpace line) = "" then set
  else if containsSlash (goFirstField (goTrimSpace line)) then
    insertKey set (goFirstField (goTrimSpace line))
  else if maskIPToCIDR (goFirstField (goTrimSpace line)) = "" then set
  else insertKey set (maskIPToCIDR (goFirstField (goTrimSpace line)))

/-- `rules.LoadOpenProxyRule` after the file is read and split into lines
(`os.Open` + `bufio.Scanner` are the host's I/O; the rule's own logic is
the per-line loop). -/
def loadOpenProxyRuleLines (lines : List String) (score : Int) : OpenProxyRule :=
  { ProxyKeys := lines.foldl loadLine [], RiskScore := score }

/-- `OpenProxyRule.Validate` (pkg/rules/open_proxy.go): an empty masked
prefix never triggers; otherwise trigger exactly on set membership. -/
def openProxyValidate (o : OpenProxyRule) (input : LoginRecord)
    (_lastRecord : Option LoginRecord) : Except String Int :=
  if input.MaskedIP = "" then .ok 0
  else if input.MaskedIP ∈ o.ProxyKeys then .ok o.RiskScore
  else .ok 0

/-- `OpenProxyRule.AddIP`: the IP is masked before insertion. -/
def OpenProxyRule.AddIP (o : OpenProxyRule) (ip : String) : OpenProxyRule :=
  if maskIPToCIDR ip = "" then o
  else { o with ProxyKeys := insertKey o.ProxyKeys (maskIPToCIDR ip) }

/-- `OpenProxyRule.RemoveIP`: the IP is masked before deletion. -/
def OpenProxyRule.RemoveIP (o : OpenProxyRule) (ip : String) : OpenProxyRule :=
  if maskIPToCIDR ip = "" then o
  else { o with ProxyKeys := o.ProxyKeys.filter (· ≠ maskIPToCIDR ip) }

/-! ## The evaluation engine (pkg/engine/engine.go) -/

/-- The rule dispatch inside `GeoGuard.Validate`'s loop: the type assertion
`rule.(rules.EphemeralGeoRule)` selects `ValidateWithGeo` when the rule
satisfies the interface and `Validate` otherwise. -/
def evalRule (geoCtx : GeoContext) (cur : LoginRecord) (last : Option LoginRecord)
    (r : Rule) : Except String Int :=
  match r.ValidateWithGeo with
  | some f => f geoCtx cur last
  | none => r.Validate cur last

/-- The aggregation loop of `GeoGuard.Validate`: an erroring rule is
skipped, a positive score adds to the total and appends a violation. -/
def runRulesAux (geoCtx : GeoContext) (cur : LoginRecord) (last : Option LoginRecord) :
    List Rule → RiskResult → RiskResult
  | [], acc => acc
  | r :: rs, acc =>
    let acc2 :=
      match evalRule geoCtx cur last r with
      | .error _ => acc
      | .ok score =>
        if 0 < score then
          { acc with
            TotalRiskScore := acc.TotalRiskScore + score
            Violations := acc.Violations ++
              [{ RuleName := r.Name, RiskScore := score, Reason := r.Description }] }
        else acc
    runRulesAux geoCtx cur last rs acc2

/-- Step 1 of `Validate`: GeoIP lookup, `&geoip.GeoData{}` on failure. -/
def validateGeoData (g : GeoGuard) (input : Input) : GeoData :=
  match g.env.getLocation input.IPAddress with
  | .error _ => {}
  | .ok d => d

/-- Step 1 of `Validate`: ASN lookup, `(0, "")` on failure. -/
def validateASN (g : GeoGuard) (input : Input) : Nat × String :=
  match g.env.getASN input.IPAddress with
  | .error _ => (0, "")
  | .ok p => p

/-- Steps 2-3 of `Validate`: the privacy-safe `LoginRecord` literal (the
raw IP enters only `MaskIP`, the raw user agent only the fingerprint
hash).  `InputLanguage` is not set and stays at Go's zero value. -/
def currentRecordOf (g : GeoGuard) (input : Input) : LoginRecord :=
  { UserID := input.UserID
    Timestamp := g.env.now
    MaskedIP := MaskIP input.IPAddress
    CountryCode := (validateGeoData g input).CountryCode
    CityGeonameID := (validateGeoData g input).CityGeonameID
    ASN := (validateASN g input).1
    OrgName := (validateASN g input).2
    FingerprintHash := GenerateFingerprintHash g.env.digest input.UserAgent input.AcceptLanguage
    IPTimezone := (validateGeoData g input).Timezone
    ClientTimezone := input.ClientTimezone }

/-- Step 4 of `Validate`: history fetch, `nil` record on failure. -/
def lastRecordOf (g : GeoGuard) (input : Input) : Option LoginRecord :=
  match g.env.getLastRecord input.UserID with
  | .error _ => none
  | .ok o => o

/-- `GeoGuard.lookupPreviousLocation`: strip the text from the last `'/'`
on and look the prefix address up; the empty prefix yields `(nil, nil)`. -/
def lookupPreviousLocation (g : GeoGuard) (masked : String) : Except String (Option GeoData) :=
  if masked = "" then .ok none
  else
    let ipForLookup :=
      match (masked.data.reverse.dropWhile (fun c => c ≠ '/')) with
      | [] => masked
      | _ :: t => String.mk t.reverse
    (g.env.getLocation ipForLookup).map some

/-- `GeoGuard.buildGeoContext`: current IP centroid, device coordinates,
and — when a previous record with a masked prefix exists and its lookup
succeeds — the previous IP centroid. -/
def buildGeoContext (g : GeoGuard) (geoData : GeoData) (input : Input)
    (lastRecord : Option LoginRecord) : GeoContext :=
  let base : GeoContext :=
    { IPLatitude := geoData.Latitude
      IPLongitude := geoData.Longitude
      DeviceLatitude := input.Latitude
      DeviceLongitude := input.Longitude
      PreviousIPLatitude := 0
      PreviousIPLongitude := 0 }
  match lastRecord with
  | none => base
  | some lr =>
    if lr.MaskedIP ≠ "" then
      match lookupPreviousLocation g lr.MaskedIP with
      | .ok (some prev) =>
        { base with PreviousIPLatitude := prev.Latitude, PreviousIPLongitude := prev.Longitude }
      | _ => base
    else base

/-- The empty accumulator `Validate` starts from. -/
def initRiskResult : RiskResult :=
  { TotalRiskScore := 0, Violations := [], IsBlocked := false }

/-- `engine.GeoGuard.Validate`: the full pipeline.  The Go signature
returns `(*RiskResult, *models.LoginRecord, error)`; both pointers are
always non-nil and the error is always nil (`return result, &currentRecord,
nil`), so the model returns the two values and the (always-`none`) error
component. -/
def GeoGuard.Validate (g : GeoGuard) (input : Input) :
    RiskResult × LoginRecord × Option String :=
  (runRulesAux (buildGeoContext g (validateGeoData g input) input (lastRecordOf g input))
      (currentRecordOf g input) (lastRecordOf g input) g.rules initRiskResult,
    currentRecordOf g input, none)

/-! ## Spec-side vocabulary for the aggregation claims -/

/-- The score a single configured rule contributes to the total. -/
def ruleContribution (geoCtx : GeoContext) (cur : LoginRecord)
    (last : Option LoginRecord) (r : Rule) : Int :=
  match evalRule geoCtx cur last r with
  | .ok s => if 0 < s then s else 0
  | .error _ => 0

/-- The violation entry a single configured rule produces, if any. -/
def ruleViolationEntry (geoCtx : GeoContext) (cur : LoginRecord)
    (last : Option LoginRecord) (r : Rule) : Option Violation :=
  match evalRule geoCtx cur last r with
  | .ok s =>
    if 0 < s then some { RuleName := r.Name, RiskScore := s, Reason := r.Description }
    else none
  | .error _ => none

/-- A string that the open-proxy masking can produce: what the spec calls
a masked /24 or /64 prefix. -/
def IsMaskedKey (s : String) : Prop :=
  ∃ t, maskIPToCIDR t = s ∧ s ≠ ""

/-! ## Concrete fixtures (used by witnesses and counterexamples) -/

/-- An environment whose geo and ASN lookups fail and whose history is
empty; the digest is the identity. -/
noncomputable def envW : Env :=
  { getLocation := fun _ => .error "lookup failed"
    getASN := fun _ => .error "lookup failed"
    getLastRecord := fun _ => .ok none
    digest := fun s => s
    now := 0 }

/-- A rule that always fails with an error. -/
def badRuleW : Rule :=
  { Name := "AlwaysError"
    Description := "always fails"
    Validate := fun _ _ => .error "boom"
    ValidateWithGeo := none }

/-- A plain rule that always scores 5. -/
def okRuleW : Rule :=
  { Name := "AlwaysFive"
    Description := "always scores five"
    Validate := fun _ _ => .ok 5
    ValidateWithGeo := none }

/-- An engine configured with a scoring rule followed by an erroring one. -/
noncomputable def gW : GeoGuard :=
  { env := envW, rules := [okRuleW, badRuleW] }

/-- A concrete login attempt. -/
noncomputable def inputW : Input :=
  { UserID := "alice"
    IPAddress := "203.0.113.7"
    Latitude := 0
    Longitude := 0
    UserAgent := "agent"
    AcceptLanguage := "en-US"
    ClientTimezone := "UTC" }

/-- A current record located in the US with an English browser. -/
noncomputable def recUS : LoginRecord :=
  { UserID := "alice"
    Timestamp := 1
    MaskedIP := "203.0.113.0/24"
    CountryCode := "US"
    CityGeonameID := 0
    ASN := 0
    OrgName := ""
    FingerprintHash := ""
    IPTimezone := ""
    ClientTimezone := ""
    InputLanguage := "en-US" }

/-- A current record located in Germany with a Turkish browser. -/
noncomputable def recDEtr : LoginRecord :=
  { UserID := "bob"
    Timestamp := 1
    MaskedIP := "84.17.0.0/24"
    CountryCode := "DE"
    CityGeonameID := 0
    ASN := 0
    OrgName := ""
    FingerprintHash := ""
    IPTimezone := ""
    ClientTimezone := ""
    InputLanguage := "tr-TR" }

/-- A previous record also located in Germany. -/
noncomputable def recDE : LoginRecord :=
  { UserID := "bob"
    Timestamp := 0
    MaskedIP := "84.17.0.0/24"
    CountryCode := "DE"
    CityGeonameID := 0
    ASN := 0
    OrgName := ""
    FingerprintHash := ""
    IPTimezone := ""
    ClientTimezone := ""
    InputLanguage := "tr-TR" }

/-- A previous record located in Turkey. -/
noncomputable def recTR : LoginRecord :=
  { UserID := "alice"
    Timestamp := 0
    MaskedIP := "88.224.0.0/24"
    CountryCode := "TR"
    CityGeonameID := 0
    ASN := 0
    OrgName := ""
    FingerprintHash := ""
    IPTimezone := ""
    ClientTimezone := ""
    InputLanguage := "tr-TR" }

end GoGeoGuard

namespace GoGeoGuard

/-! ## Aggregation lemmas for the engine loop -/

theorem ruleContribution_nonneg (ctx : GeoContext) (cur : LoginRecord)
    (last : Option LoginRecord) (r : Rule) : 0 ≤ ruleContribution ctx cur last r := by
  unfold ruleContribution
  cases evalRule ctx cur last r with
  | error e => simp
  | ok s =>
    by_cases h : 0 < s <;> simp [h]
    omega

theorem runRulesAux_spec (ctx : GeoContext) (cur : LoginRecord)
    (last : Option LoginRecord) :
    ∀ (rs : List Rule) (acc : RiskResult),
      (runRulesAux ctx cur last rs acc).TotalRiskScore =
        acc.TotalRiskScore + (rs.map (ruleContribution ctx cur last)).sum ∧
      (runRulesAux ctx cur last rs acc).Violations =
        acc.Violations ++ rs.filterMap (ruleViolationEntry ctx cur last) ∧
      (runRulesAux ctx cur last rs acc).IsBlocked = acc.IsBlocked := by
  intro rs
  induction rs with
  | nil => intro acc; simp [runRulesAux]
  | cons r rs ih =>
    intro acc
    simp only [runRulesAux, List.map_cons, List.sum_cons, List.filterMap_cons]
    cases h : evalRule ctx cur last r with
    | error e =>
      have := ih acc
      simp only [h, ruleContribution, ruleViolationEntry] at this ⊢
      refine ⟨?_, ?_, this.2.2⟩
      · rw [this.1]; ring
      · rw [this.2.1]
    | ok s =>
      by_cases hs : 0 < s
      · have := ih { acc with
          TotalRiskScore := acc.TotalRiskScore + s
          Violations := acc.Violations ++
            [{ RuleName := r.Name, RiskScore := s, Reason := r.Description }] }
        simp only [h, hs, if_true, ruleContribution, ruleViolationEntry] at this ⊢
        refine ⟨?_, ?_, this.2.2⟩
        · rw [this.1]; ring
        · rw [this.2.1]; simp
      · have := ih acc
        simp only [h, hs, if_false, ruleContribution, ruleViolationEntry] at this ⊢
        refine ⟨?_, ?_, this.2.2⟩
        · rw [this.1]; ring_nf
        · rw [this.2.1]

theorem runRulesAux_append (ctx : GeoContext) (cur : LoginRecord)
    (last : Option LoginRecord) (l1 l2 : List Rule) (acc : RiskResult) :
    runRulesAux ctx cur last (l1 ++ l2) acc =
      runRulesAux ctx cur last l2 (runRulesAux ctx cur last l1 acc) := by
  induction l1 generalizing acc with
  | nil => simp [runRulesAux]
  | cons r rs ih => simp only [List.cons_append, runRulesAux]; exact ih _

theorem buildGeoContext_IPLatitude (g : GeoGuard) (gd : GeoData) (input : Input)
    (lr : Option LoginRecord) : (buildGeoContext g gd input lr).IPLatitude = gd.Latitude := by
  cases lr with
  | none => rfl
  | some r =>
    by_cases hm : r.MaskedIP ≠ ""
    · cases hlook : lookupPreviousLocation g r.MaskedIP with
      | error e => simp [buildGeoContext, hm, hlook]
      | ok o =>
        cases o with
        | none => simp [buildGeoContext, hm, hlook]
        | some prev => simp [buildGeoContext, hm, hlook]
    · simp [buildGeoContext, hm]

theorem buildGeoContext_IPLongitude (g : GeoGuard) (gd : GeoData) (input : Input)
    (lr : Option LoginRecord) : (buildGeoContext g gd input lr).IPLongitude = gd.Longitude := by
  cases lr with
  | none => rfl
  | some r =>
    by_cases hm : r.MaskedIP ≠ ""
    · cases hlook : lookupPreviousLocation g r.MaskedIP with
      | error e => simp [buildGeoContext, hm, hlook]
      | ok o =>
        cases o with
        | none => simp [buildGeoContext, hm, hlook]
        | some prev => simp [buildGeoContext, hm, hlook]
    · simp [buildGeoContext, hm]

/-! ## C1 -/

/-- C1: every `Validate` call returns a `RiskResult` whose total is the
sum of the contributions of exactly the configured rules whose entry point
returned a positive score without error; the violations list is exactly
the per-rule entries (name, returned score, description) in configuration
order (`AddRule` appends, so configuration order is `g.rules` order); a
zero or erroring rule contributes neither; and the total is non-negative
(unconditionally, hence in particular when every returned score is
non-negative). -/
theorem validate_total_and_violations (g : GeoGuard) (input : Input) :
    ((g.Validate input).1.TotalRiskScore =
      (g.rules.map (ruleContribution
        (buildGeoContext g (validateGeoData g input) input (lastRecordOf g input))
        (currentRecordOf g input) (lastRecordOf g input))).sum) ∧
    ((g.Validate input).1.Violations =
      g.rules.filterMap (ruleViolationEntry
        (buildGeoContext g (validateGeoData g input) input (lastRecordOf g input))
        (currentRecordOf g input) (lastRecordOf g input))) ∧
    (0 ≤ (g.Validate input).1.TotalRiskScore) ∧
    (∀ r : Rule, (g.AddRule r).rules = g.rules ++ [r]) := by
  have h := runRulesAux_spec
    (buildGeoContext g (validateGeoData g input) input (lastRecordOf g input))
    (currentRecordOf g input) (lastRecordOf g input) g.rules initRiskResult
  have h1 : (g.Validate input).1.TotalRiskScore =
      (g.rules.map (ruleContribution
        (buildGeoContext g (validateGeoData g input) input (lastRecordOf g input))
        (currentRecordOf g input) (lastRecordOf g input))).sum := by
    have := h.1
    simp only [initRiskResult] at this
    simpa [GeoGuard.Validate] using this
  refine ⟨h1, ?_, ?_, fun r => rfl⟩
  · have := h.2.1
    simp only [initRiskResult] at this
    simpa [GeoGuard.Validate] using this
  · rw [h1]
    exact List.sum_nonneg (by
      intro x hx
      obtain ⟨r, _, rfl⟩ := List.mem_map.mp hx
      exact ruleContribution_nonneg _ _ _ r)

/-! ## C2 -/

/-- C2: the engine invokes exactly one scoring entry point per configured
rule: `ValidateWithGeo` when the rule satisfies `EphemeralGeoRule` (so the
context-aware contract is preferred even though the rule also carries
`Validate`), `Validate` otherwise; the result then does not depend on the
unused `Validate` body, and two rules with the same entry points evaluate
identically whatever their names and descriptions — the dispatch never
depends on the rule's concrete identity. -/
theorem evalRule_dispatch (ctx : GeoContext) (cur : LoginRecord) (last : Option LoginRecord)
    (n d n' d' : String) (v v' : LoginRecord → Option LoginRecord → Except String Int)
    (f : GeoContext → LoginRecord → Option LoginRecord → Except String Int)
    (r₁ r₂ : Rule) :
    (evalRule ctx cur last
        { Name := n, Description := d, Validate := v, ValidateWithGeo := some f } =
      f ctx cur last) ∧
    (evalRule ctx cur last
        { Name := n, Description := d, Validate := v, ValidateWithGeo := none } =
      v cur last) ∧
    (evalRule ctx cur last
        { Name := n, Description := d, Validate := v, ValidateWithGeo := some f } =
      evalRule ctx cur last
        { Name := n', Description := d', Validate := v', ValidateWithGeo := some f }) ∧
    (r₁.Validate = r₂.Validate → r₁.ValidateWithGeo = r₂.ValidateWithGeo →
      evalRule ctx cur last r₁ = evalRule ctx cur last r₂) := by
  refine ⟨rfl, rfl, rfl, fun h1 h2 => ?_⟩
  unfold evalRule
  rw [h1, h2]

/-! ## C3 -/

/-- C3: `Validate` always returns its result and record with a nil error;
a failed geolocation lookup zeroes the record's geo fields and the
context's IP centroid but evaluation proceeds; a failed ASN lookup zeroes
ASN and organization name; a failed history fetch makes the call behave
exactly like one whose history store returned no record. -/
theorem validate_error_degradation (g : GeoGuard) (input : Input) :
    ((g.Validate input).2.2 = none) ∧
    ((∃ e, g.env.getLocation input.IPAddress = .error e) →
      (g.Validate input).2.1.CountryCode = "" ∧
      (g.Validate input).2.1.CityGeonameID = 0 ∧
      (g.Validate input).2.1.IPTimezone = "" ∧
      (buildGeoContext g (validateGeoData g input) input (lastRecordOf g input)).IPLatitude = 0 ∧
      (buildGeoContext g (validateGeoData g input) input (lastRecordOf g input)).IPLongitude = 0) ∧
    ((∃ e, g.env.getASN input.IPAddress = .error e) →
      (g.Validate input).2.1.ASN = 0 ∧ (g.Validate input).2.1.OrgName = "") ∧
    ((∃ e, g.env.getLastRecord input.UserID = .error e) →
      g.Validate input =
        GeoGuard.Validate
          { g with env := { g.env with getLastRecord := fun _ => .ok none } } input) := by
  refine ⟨rfl, ?_, ?_, ?_⟩
  · rintro ⟨e, he⟩
    have hgd : validateGeoData g input = {} := by simp [validateGeoData, he]
    refine ⟨?_, ?_, ?_, ?_, ?_⟩
    · show (currentRecordOf g input).CountryCode = ""
      simp [currentRecordOf, hgd]
    · show (currentRecordOf g input).CityGeonameID = 0
      simp [currentRecordOf, hgd]
    · show (currentRecordOf g input).IPTimezone = ""
      simp [currentRecordOf, hgd]
    · rw [buildGeoContext_IPLatitude, hgd]
    · rw [buildGeoContext_IPLongitude, hgd]
  · rintro ⟨e, he⟩
    have ha : validateASN g input = (0, "") := by simp [validateASN, he]
    constructor
    · show (currentRecordOf g input).ASN = 0
      simp [currentRecordOf, ha]
    · show (currentRecordOf g input).OrgName = ""
      simp [currentRecordOf, ha]
  · rintro ⟨e, he⟩
    have hl : lastRecordOf g input = none := by simp [lastRecordOf, he]
    have hl' : lastRecordOf
        { g with env := { g.env with getLastRecord := fun _ => .ok none } } input = none := rfl
    simp only [GeoGuard.Validate, hl, hl']
    rfl

/-! ## C4 -/

/-- C4: a configured rule whose invoked entry point fails with an error
contributes nothing — the whole evaluation equals the evaluation of the
same engine with that rule removed, so every other rule still scores and
no violation entry is produced for the failing rule. -/
theorem validate_rule_error_isolated (g : GeoGuard) (input : Input)
    (rs1 rs2 : List Rule) (bad : Rule) (e : String)
    (hrules : g.rules = rs1 ++ bad :: rs2)
    (herr : evalRule (buildGeoContext g (validateGeoData g input) input (lastRecordOf g input))
      (currentRecordOf g input) (lastRecordOf g input) bad = .error e) :
    g.Validate input = GeoGuard.Validate { g with rules := rs1 ++ rs2 } input := by
  have hc : GeoGuard.Validate { g with rules := rs1 ++ rs2 } input =
      (runRulesAux (buildGeoContext g (validateGeoData g input) input (lastRecordOf g input))
        (currentRecordOf g input) (lastRecordOf g input) (rs1 ++ rs2) initRiskResult,
       currentRecordOf g input, none) := rfl
  rw [hc]
  simp only [GeoGuard.Validate, hrules, runRulesAux_append]
  simp only [runRulesAux, herr]

/-- Witness for C4 at a concrete engine: two configured rules, the second
always erroring; removing it does not change the outcome. -/
theorem validate_rule_error_isolated_witness :
    (gW.rules = [okRuleW] ++ badRuleW :: []) ∧
    (evalRule (buildGeoContext gW (validateGeoData gW inputW) inputW (lastRecordOf gW inputW))
      (currentRecordOf gW inputW) (lastRecordOf gW inputW) badRuleW = .error "boom") ∧
    (gW.Validate inputW = GeoGuard.Validate { gW with rules := [okRuleW] ++ [] } inputW) :=
  ⟨rfl, rfl, validate_rule_error_isolated gW inputW [okRuleW] [] badRuleW "boom" rfl rfl⟩

/-! ## C10 -/

/-- C10: `GenerateFingerprintHash` digests `userAgent ++ "|" ++ language`,
so whatever the digest is, shifting a `"|"`-suffixed chunk between the two
arguments gives the same hash — in particular the distinct pairs
`("a|b", "c")` and `("a", "b|c")` collide. -/
theorem fingerprintHash_separator_collision (digest : String → String) (a b c : String) :
    (GenerateFingerprintHash digest (a ++ "|" ++ b) c =
      GenerateFingerprintHash digest a (b ++ "|" ++ c)) ∧
    (GenerateFingerprintHash digest "a|b" "c" = GenerateFingerprintHash digest "a" "b|c") ∧
    (("a|b", "c") ≠ (("a", "b|c") : String × String)) := by
  refine ⟨?_, rfl, by decide⟩
  unfold GenerateFingerprintHash
  congr 1
  simp only [String.append_assoc]

/-! ## C5 -/

/-- C5 (code bug): the country-mismatch rule as implemented never compares
the current and previous country codes.  With current country `"US"`
(browser language `"en-US"`) and previous country `"TR"` — a country change
with both codes non-empty, which the spec (and the repository README,
which describes the rule as flagging country changes between logins) says
must trigger — the rule returns 0.  Conversely it returns its score with
no country change at all: current and previous both `"DE"`, current
language `"tr-TR"`.  The code instead hardcodes two country/language
heuristics and ignores the previous record (and the engine's record
literal never even sets the `InputLanguage` field the rule reads). -/
theorem countryMismatch_ignores_previous_record :
    (countryMismatchValidate ⟨25⟩ recUS (some recTR) = .ok 0) ∧
    (recUS.CountryCode = "US" ∧ recUS.CountryCode ≠ recTR.CountryCode ∧
      recUS.CountryCode ≠ "" ∧ recTR.CountryCode ≠ "") ∧
    (countryMismatchValidate ⟨25⟩ recDEtr (some recDE) = .ok 25) ∧
    (recDEtr.CountryCode = recDE.CountryCode) := by
  refine ⟨rfl, ⟨by decide, by decide, by decide, by decide⟩, rfl, by decide⟩

/-! ## C6 -/

/-- C6: with no previous record the velocity rule returns 0; with a
previous record and non-sentinel current and previous centroids it
triggers exactly when the haversine distance divided by the elapsed hours
strictly exceeds the configured maximum speed (for positive elapsed time),
and for elapsed time ≤ 0 exactly when the distance exceeds the fixed 10 km
tolerance; in particular at maximum speed 900 km/h and records 1 hour
apart, a 901 km distance triggers and an 899 km distance does not. -/
theorem velocity_triggers_iff_speed_exceeded (v : VelocityRule) (ctx : GeoContext)
    (input : LoginRecord) (lr : LoginRecord) :
    (velocityValidateWithGeo v ctx input none = .ok 0) ∧
    (¬(ctx.IPLatitude = 0 ∧ ctx.IPLongitude = 0) →
     ¬(ctx.PreviousIPLatitude = 0 ∧ ctx.PreviousIPLongitude = 0) →
      (0 < input.Timestamp - lr.Timestamp →
        velocityValidateWithGeo v ctx input (some lr) =
          (if v.MaxSpeedKmh <
              haversine ctx.IPLatitude ctx.IPLongitude
                ctx.PreviousIPLatitude ctx.PreviousIPLongitude /
                (input.Timestamp - lr.Timestamp)
            then .ok v.RiskScore else .ok 0)) ∧
      (input.Timestamp - lr.Timestamp ≤ 0 →
        velocityValidateWithGeo v ctx input (some lr) =
          (if 10 < haversine ctx.IPLatitude ctx.IPLongitude
              ctx.PreviousIPLatitude ctx.PreviousIPLongitude
            then .ok v.RiskScore else .ok 0)) ∧
      (v.MaxSpeedKmh = 900 → input.Timestamp - lr.Timestamp = 1 →
        (haversine ctx.IPLatitude ctx.IPLongitude
            ctx.PreviousIPLatitude ctx.PreviousIPLongitude = 901 →
          velocityValidateWithGeo v ctx input (some lr) = .ok v.RiskScore) ∧
        (haversine ctx.IPLatitude ctx.IPLongitude
            ctx.PreviousIPLatitude ctx.PreviousIPLongitude = 899 →
          velocityValidateWithGeo v ctx input (some lr) = .ok 0))) := by
  have hbase : ∀ _h1 : ¬(ctx.IPLatitude = 0 ∧ ctx.IPLongitude = 0),
      ∀ _h2 : ¬(ctx.PreviousIPLatitude = 0 ∧ ctx.PreviousIPLongitude = 0),
      velocityValidateWithGeo v ctx input (some lr) =
        (if input.Timestamp - lr.Timestamp ≤ 0 then
          (if 10 < haversine ctx.IPLatitude ctx.IPLongitude
              ctx.PreviousIPLatitude ctx.PreviousIPLongitude
            then .ok v.RiskScore else .ok 0)
        else if v.MaxSpeedKmh <
            haversine ctx.IPLatitude ctx.IPLongitude
              ctx.PreviousIPLatitude ctx.PreviousIPLongitude /
              (input.Timestamp - lr.Timestamp)
          then .ok v.RiskScore else .ok 0) := by
    intro h1 h2
    simp only [velocityValidateWithGeo]
    rw [if_neg h1, if_neg h2]
  refine ⟨rfl, fun h1 h2 => ⟨fun hdur => ?_, fun hdur => ?_, fun hmax hone => ⟨fun hd => ?_, fun hd => ?_⟩⟩⟩
  · rw [hbase h1 h2, if_neg (not_le.mpr hdur)]
  · rw [hbase h1 h2, if_pos hdur]
  · rw [hbase h1 h2, hone, hd, hmax]
    norm_num
  · rw [hbase h1 h2, hone, hd, hmax]
    norm_num

/-! ## C8 -/

theorem haversine_self (lat lon : ℝ) : haversine lat lon lat lon = 0 := by
  unfold haversine atan2
  norm_num

/-- C8: the geofencing rule is skipped when the IP centroid is exactly
(0,0); otherwise it triggers exactly when the haversine distance from the
configured center strictly exceeds the configured radius.  Consequently a
centroid equal to the center never triggers for any positive radius
(haversine distance from a point to itself is 0), and a point at distance
exactly the radius does not trigger. -/
theorem geofencing_triggers_iff_outside (gf : GeofencingRule) (ctx : GeoContext)
    (input : LoginRecord) (lastRecord : Option LoginRecord) :
    ((ctx.IPLatitude = 0 ∧ ctx.IPLongitude = 0) →
      geofencingValidateWithGeo gf ctx input lastRecord = .ok 0) ∧
    (¬(ctx.IPLatitude = 0 ∧ ctx.IPLongitude = 0) →
      geofencingValidateWithGeo gf ctx input lastRecord =
        (if gf.RadiusKm < haversine gf.CenterLat gf.CenterLon ctx.IPLatitude ctx.IPLongitude
          then .ok gf.RiskScore else .ok 0)) ∧
    (ctx.IPLatitude = gf.CenterLat → ctx.IPLongitude = gf.CenterLon → 0 < gf.RadiusKm →
      geofencingValidateWithGeo gf ctx input lastRecord = .ok 0) ∧
    (haversine gf.CenterLat gf.CenterLon ctx.IPLatitude ctx.IPLongitude = gf.RadiusKm →
      geofencingValidateWithGeo gf ctx input lastRecord = .ok 0) := by
  have h1 : (ctx.IPLatitude = 0 ∧ ctx.IPLongitude = 0) →
      geofencingValidateWithGeo gf ctx input lastRecord = .ok 0 := by
    intro h
    simp only [geofencingValidateWithGeo]
    rw [if_pos h]
  have h2 : ¬(ctx.IPLatitude = 0 ∧ ctx.IPLongitude = 0) →
      geofencingValidateWithGeo gf ctx input lastRecord =
        (if gf.RadiusKm < haversine gf.CenterLat gf.CenterLon ctx.IPLatitude ctx.IPLongitude
          then .ok gf.RiskScore else .ok 0) := by
    intro h
    simp only [geofencingValidateWithGeo]
    rw [if_neg h]
  refine ⟨h1, h2, fun hla hlo hr => ?_, fun hd => ?_⟩
  · by_cases hs : ctx.IPLatitude = 0 ∧ ctx.IPLongitude = 0
    · exact h1 hs
    · rw [h2 hs, hla, hlo, haversine_self, if_neg (not_lt.mpr (le_of_lt hr))]
  · by_cases hs : ctx.IPLatitude = 0 ∧ ctx.IPLongitude = 0
    · exact h1 hs
    · rw [h2 hs, hd, if_neg (lt_irrefl gf.RadiusKm)]

/-! ## C7 -/

theorem maskIP_shape (t : String) :
    MaskIP t = "" ∨ (∃ a, MaskIP t = a ++ "/24") ∨ (∃ a, MaskIP t = a ++ "/64") := by
  rcases hp : parseIP t with - | ip
  · exact Or.inl (by simp [MaskIP, hp])
  · rcases ht : to4 ip with - | q
    · refine Or.inr (Or.inr ⟨ipv6String (ip.take 8 ++ List.replicate 8 0), ?_⟩)
      simp [MaskIP, hp, ht]
    · refine Or.inr (Or.inl ⟨ipv4String (q.take 3 ++ [0]), ?_⟩)
      simp [MaskIP, hp, ht]

theorem not_maskedKey_slash16 : ¬ IsMaskedKey "5.6.7.8/16" := by
  rintro ⟨t, ht, -⟩
  rw [maskIPToCIDR] at ht
  rcases maskIP_shape t with h | ⟨a, h⟩ | ⟨a, h⟩
  · rw [h] at ht
    exact absurd ht (by decide)
  · rw [h] at ht
    have h4 : (a ++ "/24").data.getLast? = some '4' := by
      rw [String.data_append, List.getLast?_append_of_ne_nil _ (by decide)]
      decide
    rw [ht] at h4
    exact absurd h4 (by decide)
  · rw [h] at ht
    have h4 : (a ++ "/64").data.getLast? = some '4' := by
      rw [String.data_append, List.getLast?_append_of_ne_nil _ (by decide)]
      decide
    rw [ht] at h4
    exact absurd h4 (by decide)

/-- C7 counterexample: `LoadOpenProxyRule` inserts a file line that
already contains `'/'` verbatim, so the line `"5.6.7.8/16"` puts the key
`"5.6.7.8/16"` — which no masking can produce, being neither a `/24` nor a
`/64` prefix — into the blacklist set unmasked. -/
theorem openProxy_file_line_enters_unmasked :
    ((loadOpenProxyRuleLines ["5.6.7.8/16"] 40).ProxyKeys = ["5.6.7.8/16"]) ∧
    ¬ IsMaskedKey "5.6.7.8/16" :=
  ⟨by decide, not_maskedKey_slash16⟩

theorem insertKey_mem {l : List String} {p k : String} (h : k ∈ insertKey l p) :
    k ∈ l ∨ k = p := by
  unfold insertKey at h
  split at h
  · exact Or.inl h
  · rcases List.mem_append.mp h with h' | h'
    · exact Or.inl h'
    · exact Or.inr (List.mem_singleton.mp h')

theorem maskFold_invariant : ∀ (ips : List String) (set : List String),
    (∀ k ∈ set, IsMaskedKey k) →
    ∀ k ∈ ips.foldl (fun set ip =>
        if maskIPToCIDR ip = "" then set else insertKey set (maskIPToCIDR ip)) set,
      IsMaskedKey k := by
  intro ips
  induction ips with
  | nil => intro set h k hk; exact h k hk
  | cons ip ips ih =>
    intro set h k hk
    simp only [List.foldl_cons] at hk
    refine ih _ ?_ k hk
    intro k' hk'
    by_cases hm : maskIPToCIDR ip = ""
    · rw [if_pos hm] at hk'
      exact h k' hk'
    · rw [if_neg hm] at hk'
      rcases insertKey_mem hk' with h' | h'
      · exact h k' h'
      · exact h' ▸ ⟨ip, rfl, hm⟩

theorem loadLine_mem {set : List String} {line k : String}
    (h : k ∈ loadLine set line) :
    k ∈ set ∨ IsMaskedKey k ∨
      (containsSlash k = true ∧ goFirstField (goTrimSpace line) = k) := by
  unfold loadLine at h
  split at h
  · exact Or.inl h
  · split at h
    · exact Or.inl h
    · split at h
      · rename_i hslash
        rcases insertKey_mem h with h' | h'
        · exact Or.inl h'
        · subst h'
          exact Or.inr (Or.inr ⟨hslash, rfl⟩)
      · split at h
        · exact Or.inl h
        · rename_i hmask
          rcases insertKey_mem h with h' | h'
          · exact Or.inl h'
          · exact Or.inr (Or.inl ⟨_, h'.symm, h' ▸ hmask⟩)

theorem loadFold_invariant : ∀ (lines : List String) (set : List String) (k : String),
    k ∈ lines.foldl loadLine set →
    k ∈ set ∨ IsMaskedKey k ∨
      (containsSlash k = true ∧ ∃ l ∈ lines, goFirstField (goTrimSpace l) = k) := by
  intro lines
  induction lines with
  | nil => intro set k hk; exact Or.inl hk
  | cons l ls ih =>
    intro set k hk
    simp only [List.foldl_cons] at hk
    rcases ih _ k hk with h' | h' | ⟨hs, l', hl', hf⟩
    · rcases loadLine_mem h' with h'' | h'' | ⟨hs, hf⟩
      · exact Or.inl h''
      · exact Or.inr (Or.inl h'')
      · exact Or.inr (Or.inr ⟨hs, l, List.mem_cons_self l ls, hf⟩)
    · exact Or.inr (Or.inl h')
    · exact Or.inr (Or.inr ⟨hs, l', List.mem_cons_of_mem l hl', hf⟩)

/-- C7 (amended): keys reaching the blacklist through construction from an
IP list (`NewOpenProxyRule`), runtime `AddIP`, and plain-IP file lines are
always masked `/24` or `/64` prefixes, and `RemoveIP` preserves that
invariant; however `LoadOpenProxyRule` inserts any file line whose first
field already contains `'/'` verbatim, without masking or validation, so a
file key is either a masked prefix or the literal first field of such a
CIDR-style line.  The trigger condition holds as claimed: the rule scores
exactly when the record's masked prefix is a member of the set, and an
empty masked prefix never scores. -/
theorem openProxy_masked_invariant_and_trigger :
    (∀ (ips : List String) (score : Int) (k : String),
      k ∈ (NewOpenProxyRule ips score).ProxyKeys → IsMaskedKey k) ∧
    (∀ (o : OpenProxyRule) (ip : String),
      (∀ k ∈ o.ProxyKeys, IsMaskedKey k) →
      (∀ k ∈ (o.AddIP ip).ProxyKeys, IsMaskedKey k) ∧
      (∀ k ∈ (o.RemoveIP ip).ProxyKeys, IsMaskedKey k)) ∧
    (∀ (lines : List String) (score : Int) (k : String),
      k ∈ (loadOpenProxyRuleLines lines score).ProxyKeys →
      IsMaskedKey k ∨
        (containsSlash k = true ∧ ∃ l ∈ lines, goFirstField (goTrimSpace l) = k)) ∧
    (∀ (o : OpenProxyRule) (input : LoginRecord) (last : Option LoginRecord),
      (input.MaskedIP = "" → openProxyValidate o input last = .ok 0) ∧
      (input.MaskedIP ≠ "" → openProxyValidate o input last =
        (if input.MaskedIP ∈ o.ProxyKeys then .ok o.RiskScore else .ok 0))) := by
  refine ⟨?_, ?_, ?_, ?_⟩
  · intro ips score k hk
    exact maskFold_invariant ips [] (by intro k' hk'; cases hk') k hk
  · intro o ip h
    constructor
    · intro k hk
      unfold OpenProxyRule.AddIP at hk
      by_cases hm : maskIPToCIDR ip = ""
      · rw [if_pos hm] at hk
        exact h k hk
      · rw [if_neg hm] at hk
        rcases insertKey_mem hk with h' | h'
        · exact h k h'
        · exact h' ▸ ⟨ip, rfl, hm⟩
    · intro k hk
      unfold OpenProxyRule.RemoveIP at hk
      by_cases hm : maskIPToCIDR ip = ""
      · rw [if_pos hm] at hk
        exact h k hk
      · rw [if_neg hm] at hk
        exact h k (List.mem_of_mem_filter hk)
  · intro lines score k hk
    rcases loadFold_invariant lines [] k hk with h' | h' | h'
    · cases h'
    · exact Or.inl h'
    · exact Or.inr h'
  · intro o input last
    constructor
    · intro h
      unfold openProxyValidate
      rw [if_pos h]
    · intro h
      unfold openProxyValidate
      rw [if_neg h]

/-! ## C9: character-level facts -/

theorem digitChar_spec (d : Nat) (hd : d < 10) :
    digitVal (digitChar d) = some d ∧ digitChar d ≠ '.' ∧ digitChar d ≠ ':' ∧
      digitChar d ≠ '%' ∧ digitChar d ≠ '/' := by
  interval_cases d <;> exact ⟨by decide, by decide, by decide, by decide, by decide⟩

theorem hexDigitChar_spec (d : Nat) (hd : d < 16) :
    hexDigitValue (hexDigitChar d) = some d ∧ hexDigitChar d ≠ '.' ∧ hexDigitChar d ≠ ':' ∧
      hexDigitChar d ≠ '%' ∧ hexDigitChar d ≠ '/' := by
  interval_cases d <;> exact ⟨by decide, by decide, by decide, by decide, by decide⟩

theorem hexDigitValue_lt {c : Char} {d : Nat} (h : hexDigitValue c = some d) : d < 16 := by
  unfold hexDigitValue at h
  split_ifs at h with h1 h2 h3 <;> injection h with h <;> subst h
  · have hlo : (48 : Nat) ≤ c.toNat := h1.1
    have hhi : c.toNat ≤ 57 := h1.2
    have e0 : Char.toNat '0' = 48 := rfl
    omega
  · have hlo : (97 : Nat) ≤ c.toNat := h2.1
    have hhi : c.toNat ≤ 102 := h2.2
    have ea : Char.toNat 'a' = 97 := rfl
    omega
  · have hlo : (65 : Nat) ≤ c.toNat := h3.1
    have hhi : c.toNat ≤ 70 := h3.2
    have eA : Char.toNat 'A' = 65 := rfl
    omega

/-! ## C9: decimal octets -/

theorem decOctet_ne_nil (v : Nat) : decOctet v ≠ [] := by
  unfold decOctet
  split_ifs <;> simp

theorem decOctet_chars (v : Nat) (hv : v < 256) :
    ∀ c ∈ decOctet v, ∃ d, d < 10 ∧ c = digitChar d := by
  unfold decOctet
  split_ifs with h1 h2 <;> intro c hc <;> simp only [List.mem_cons, List.mem_singleton,
    List.not_mem_nil, or_false] at hc
  · exact ⟨v, h1, hc⟩
  · rcases hc with hc | hc
    · exact ⟨v / 10, by omega, hc⟩
    · exact ⟨v % 10, by omega, hc⟩
  · rcases hc with hc | hc | hc
    · exact ⟨v / 100, by omega, hc⟩
    · exact ⟨v / 10 % 10, by omega, hc⟩
    · exact ⟨v % 10, by omega, hc⟩

theorem decOctet_not_special (v : Nat) (hv : v < 256) :
    ∀ c ∈ decOctet v, c ≠ '.' ∧ c ≠ ':' ∧ c ≠ '%' ∧ c ≠ '/' := by
  intro c hc
  obtain ⟨d, hd, rfl⟩ := decOctet_chars v hv c hc
  exact (digitChar_spec d hd).2

/-! ## C9: the IPv4 parser on printed octets -/

theorem parseIPv4Loop_digit (c : Char) (d val digLen : Nat) (rest : List Char)
    (fields : List Nat) (hc : digitVal c = some d)
    (hlz : ¬(digLen = 1 ∧ val = 0)) (hv : val * 10 + d ≤ 255) :
    parseIPv4Loop (c :: rest) val digLen fields =
      parseIPv4Loop rest (val * 10 + d) (digLen + 1) fields := by
  simp only [parseIPv4Loop, hc]
  rw [if_neg hlz, if_neg (by omega)]

theorem parseIPv4Loop_dot (rest : List Char) (val digLen : Nat) (fields : List Nat)
    (hdig : digLen ≠ 0) (hrest : rest ≠ []) (hfields : fields.length ≠ 3) :
    parseIPv4Loop ('.' :: rest) val digLen fields =
      parseIPv4Loop rest 0 0 (fields ++ [val]) := by
  simp only [parseIPv4Loop, show digitVal '.' = none from by decide, if_true]
  rw [if_neg hdig, if_neg hrest, if_neg hfields]

theorem parseIPv4Loop_decOctet (v : Nat) (hv : v < 256) (rest : List Char)
    (fields : List Nat) :
    parseIPv4Loop (decOctet v ++ rest) 0 0 fields =
      parseIPv4Loop rest v (decOctet v).length fields := by
  unfold decOctet
  split_ifs with h1 h2
  · rw [List.cons_append, List.nil_append,
      parseIPv4Loop_digit _ v 0 0 _ _ (digitChar_spec v h1).1 (by omega) (by omega)]
    norm_num
  · rw [List.cons_append, List.cons_append, List.nil_append,
      parseIPv4Loop_digit _ (v / 10) 0 0 _ _ (digitChar_spec _ (by omega)).1 (by omega)
        (by omega),
      parseIPv4Loop_digit _ (v % 10) _ 1 _ _ (digitChar_spec _ (by omega)).1 (by omega)
        (by omega)]
    have : (0 * 10 + v / 10) * 10 + v % 10 = v := by omega
    rw [this]
    norm_num
  · rw [List.cons_append, List.cons_append, List.cons_append, List.nil_append,
      parseIPv4Loop_digit _ (v / 100) 0 0 _ _ (digitChar_spec _ (by omega)).1 (by omega)
        (by omega),
      parseIPv4Loop_digit _ (v / 10 % 10) _ 1 _ _ (digitChar_spec _ (by omega)).1 (by omega)
        (by omega),
      parseIPv4Loop_digit _ (v % 10) _ 2 _ _ (digitChar_spec _ (by omega)).1 (by omega)
        (by omega)]
    have : ((0 * 10 + v / 100) * 10 + v / 10 % 10) * 10 + v % 10 = v := by omega
    rw [this]
    norm_num

theorem parseIPv4_v4Chars (a b c d : Nat) (ha : a < 256) (hb : b < 256)
    (hc : c < 256) (hd : d < 256) :
    parseIPv4 (v4Chars a b c d) = some [a, b, c, d] := by
  unfold parseIPv4 v4Chars
  rw [parseIPv4Loop_decOctet a ha,
    parseIPv4Loop_dot _ _ _ _ (by simpa using decOctet_ne_nil a)
      (by simp [decOctet_ne_nil b]) (by simp),
    parseIPv4Loop_decOctet b hb,
    parseIPv4Loop_dot _ _ _ _ (by simpa using decOctet_ne_nil b)
      (by simp [decOctet_ne_nil c]) (by simp),
    parseIPv4Loop_decOctet c hc,
    parseIPv4Loop_dot _ _ _ _ (by simpa using decOctet_ne_nil c)
      (by simpa using decOctet_ne_nil d) (by simp)]
  have hstep := parseIPv4Loop_decOctet d hd [] ([] ++ [a] ++ [b] ++ [c])
  rw [List.append_nil] at hstep
  rw [hstep]
  simp [parseIPv4Loop]

/-! ## C9: classification of printed addresses -/

theorem classifyIP_skip (l : List Char) (hl : ∀ c ∈ l, c ≠ '.' ∧ c ≠ ':' ∧ c ≠ '%')
    (s : List Char) : classifyIP (l ++ s) = classifyIP s := by
  induction l with
  | nil => rfl
  | cons c t ih =>
    obtain ⟨h1, h2, h3⟩ := hl c (List.mem_cons_self c t)
    rw [List.cons_append]
    show (if c = '.' then some true
      else if c = ':' then some false
      else if c = '%' then none else classifyIP (t ++ s)) = classifyIP s
    rw [if_neg h1, if_neg h2, if_neg h3]
    exact ih (fun c' hc' => hl c' (List.mem_cons_of_mem c hc'))

theorem classifyIP_v4Chars (a b c d : Nat) (ha : a < 256) :
    classifyIP (v4Chars a b c d) = some true := by
  unfold v4Chars
  rw [classifyIP_skip _ (fun c' hc' => ⟨(decOctet_not_special a ha c' hc').1,
    (decOctet_not_special a ha c' hc').2.1, (decOctet_not_special a ha c' hc').2.2.1⟩)]
  simp [classifyIP]

theorem to4_v4InV6 (a b c d : Nat) : to4 (v4InV6 [a, b, c, d]) = some [a, b, c, d] := by
  show to4 [0, 0, 0, 0, 0, 0, 0, 0, 0, 0, 255, 255, a, b, c, d] = some [a, b, c, d]
  unfold to4
  rw [if_neg (by simp), if_pos ⟨by simp, rfl⟩]
  rfl

theorem parseIP_v4Chars (a b c d : Nat) (ha : a < 256) (hb : b < 256)
    (hc : c < 256) (hd : d < 256) :
    parseIP (String.mk (v4Chars a b c d)) = some (v4InV6 [a, b, c, d]) := by
  unfold parseIP
  show (match classifyIP (v4Chars a b c d) with
    | some true => (parseIPv4 (v4Chars a b c d)).map v4InV6
    | some false => parseIPv6 (v4Chars a b c d)
    | none => none) = _
  rw [classifyIP_v4Chars a b c d ha, parseIPv4_v4Chars a b c d ha hb hc hd]
  rfl

/-! ## C9: well-formedness of parsed addresses (byte bounds and length) -/

theorem parseIPv4Loop_wf : ∀ (s : List Char) (val digLen : Nat) (fields r : List Nat),
    (∀ x ∈ fields, x < 256) → val < 256 →
    parseIPv4Loop s val digLen fields = some r →
    r.length = 4 ∧ ∀ x ∈ r, x < 256 := by
  intro s
  induction s with
  | nil =>
    intro val digLen fields r hf hv h
    simp only [parseIPv4Loop] at h
    split_ifs at h with h3
    injection h with h
    subst h
    refine ⟨by simp [h3], ?_⟩
    intro x hx
    rcases List.mem_append.mp hx with hx | hx
    · exact hf x hx
    · rw [List.mem_singleton.mp hx]
      exact hv
  | cons c t ih =>
    intro val digLen fields r hf hv h
    simp only [parseIPv4Loop] at h
    cases hdv : digitVal c with
    | some d =>
      simp only [hdv] at h
      split_ifs at h with h1 h2
      exact ih _ _ _ _ hf (by omega) h
    | none =>
      simp only [hdv] at h
      split_ifs at h with h1 h2 h3 h4
      refine ih _ _ _ _ ?_ (by omega) h
      intro x hx
      rcases List.mem_append.mp hx with hx | hx
      · exact hf x hx
      · rw [List.mem_singleton.mp hx]
        exact hv

theorem parseIPv4_wf {s : List Char} {r : List Nat} (h : parseIPv4 s = some r) :
    r.length = 4 ∧ ∀ x ∈ r, x < 256 :=
  parseIPv4Loop_wf s 0 0 [] r (by intro x hx; cases hx) (by omega) h

theorem takeHexDigits_lt : ∀ (s : List Char), ∀ d ∈ (takeHexDigits s).1, d < 16 := by
  intro s
  induction s with
  | nil => intro d hd; cases hd
  | cons c t ih =>
    intro d hd
    unfold takeHexDigits at hd
    cases hdv : hexDigitValue c with
    | some v =>
      simp only [hdv] at hd
      rcases List.mem_cons.mp hd with hd | hd
      · exact hd ▸ hexDigitValue_lt hdv
      · exact ih d hd
    | none =>
      simp only [hdv] at hd
      cases hd

theorem hexFold_lt : ∀ (ds : List Nat) (a : Nat), (∀ d ∈ ds, d < 16) →
    List.foldl (fun x d => x * 16 + d) a ds < (a + 1) * 16 ^ ds.length := by
  intro ds
  induction ds with
  | nil => intro a _; simpa using Nat.lt_succ_self a
  | cons d ds ih =>
    intro a hds
    have hd : d < 16 := hds d (List.mem_cons_self d ds)
    have h1 := ih (a * 16 + d) (fun x hx => hds x (List.mem_cons_of_mem d hx))
    calc List.foldl (fun x d => x * 16 + d) (a * 16 + d) ds
        < (a * 16 + d + 1) * 16 ^ ds.length := h1
      _ ≤ ((a + 1) * 16) * 16 ^ ds.length :=
          Nat.mul_le_mul_right _ (by omega)
      _ = (a + 1) * 16 ^ (ds.length + 1) := by ring

theorem hexAcc_lt {s : List Char} (hlen : (takeHexDigits s).1.length ≤ 4) :
    (takeHexDigits s).1.foldl (fun x d => x * 16 + d) 0 < 65536 := by
  have h := hexFold_lt (takeHexDigits s).1 0 (takeHexDigits_lt s)
  have h2 : (16 : Nat) ^ (takeHexDigits s).1.length ≤ 16 ^ 4 :=
    Nat.pow_le_pow_right (by omega) hlen
  calc (takeHexDigits s).1.foldl (fun x d => x * 16 + d) 0
      < (0 + 1) * 16 ^ (takeHexDigits s).1.length := h
    _ ≤ 16 ^ 4 := by simpa using h2
    _ = 65536 := by norm_num

theorem parseV6Loop_wf : ∀ (fuel : Nat) (pre : List Nat) (ell : Option Nat)
    (s : List Char) (r : List Nat) (e' : Option Nat),
    pre.length % 2 = 0 → pre.length ≤ 16 → (∀ x ∈ pre, x < 256) →
    parseV6Loop fuel pre ell s = some (r, e') →
    r.length % 2 = 0 ∧ r.length ≤ 16 ∧ ∀ x ∈ r, x < 256 := by
  intro fuel
  induction fuel with
  | zero =>
    intro pre ell s r e' _ _ _ h
    simp [parseV6Loop] at h
  | succ fuel ih =>
    intro pre ell s r e' heven hlen hb h
    simp only [parseV6Loop] at h
    by_cases h16 : 16 ≤ pre.length
    · rw [if_pos h16] at h
      by_cases hs : s = []
      · rw [if_pos hs] at h
        simp only [Option.some.injEq, Prod.mk.injEq] at h
        obtain ⟨h1, -⟩ := h
        subst h1
        exact ⟨heven, hlen, hb⟩
      · rw [if_neg hs] at h; cases h
    · rw [if_neg h16] at h
      by_cases hds : (takeHexDigits s).1 = []
      · rw [if_pos hds] at h; cases h
      rw [if_neg hds] at h
      by_cases h4 : 4 < (takeHexDigits s).1.length
      · rw [if_pos h4] at h; cases h
      rw [if_neg h4] at h
      have hacc : List.foldl (fun a d => a * 16 + d) 0 (takeHexDigits s).1 < 65536 :=
        hexAcc_lt (by omega)
      have hpre2b : ∀ x ∈ pre ++
          [List.foldl (fun a d => a * 16 + d) 0 (takeHexDigits s).1 / 256,
            List.foldl (fun a d => a * 16 + d) 0 (takeHexDigits s).1 % 256], x < 256 := by
        intro x hx
        rcases List.mem_append.mp hx with hx | hx
        · exact hb x hx
        · rcases List.mem_cons.mp hx with hx | hx
          · subst hx; omega
          · rw [List.mem_singleton.mp hx]; omega
      by_cases hdot : (takeHexDigits s).2.head? = some '.'
      · rw [if_pos hdot] at h
        by_cases hell : ell = none ∧ pre.length ≠ 12
        · rw [if_pos hell] at h; cases h
        rw [if_neg hell] at h
        by_cases hroom : 16 < pre.length + 4
        · rw [if_pos hroom] at h; cases h
        rw [if_neg hroom] at h
        cases hp4 : parseIPv4 s with
        | none => rw [hp4] at h; cases h
        | some b4 =>
          rw [hp4] at h
          simp only [Option.some.injEq, Prod.mk.injEq] at h
          obtain ⟨h1, -⟩ := h
          subst h1
          obtain ⟨hl4, hb4⟩ := parseIPv4_wf hp4
          refine ⟨by simp [hl4]; omega, by simp [hl4]; omega, ?_⟩
          intro x hx
          rcases List.mem_append.mp hx with hx | hx
          · exact hb x hx
          · exact hb4 x hx
      rw [if_neg hdot] at h
      by_cases htd2 : (takeHexDigits s).2 = []
      · rw [if_pos htd2] at h
        simp only [Option.some.injEq, Prod.mk.injEq] at h
        obtain ⟨h1, -⟩ := h
        subst h1
        exact ⟨by simp; omega, by simp; omega, hpre2b⟩
      rw [if_neg htd2] at h
      by_cases hcol : (takeHexDigits s).2.head? = some ':'
      · rw [if_pos hcol] at h
        by_cases hd1 : List.drop 1 (takeHexDigits s).2 = []
        · rw [if_pos hd1] at h; cases h
        rw [if_neg hd1] at h
        by_cases hd2 : (List.drop 1 (takeHexDigits s).2).head? = some ':'
        · rw [if_pos hd2] at h
          by_cases hes : ell.isSome = true
          · rw [if_pos hes] at h; cases h
          rw [if_neg hes] at h
          by_cases hd3 : List.drop 2 (takeHexDigits s).2 = []
          · rw [if_pos hd3] at h
            simp only [Option.some.injEq, Prod.mk.injEq] at h
            obtain ⟨h1, -⟩ := h
            subst h1
            exact ⟨by simp; omega, by simp; omega, hpre2b⟩
          · rw [if_neg hd3] at h
            exact ih _ _ _ _ _ (by simp; omega) (by simp; omega) hpre2b h
        · rw [if_neg hd2] at h
          exact ih _ _ _ _ _ (by simp; omega) (by simp; omega) hpre2b h
      · rw [if_neg hcol] at h; cases h

theorem finishV6_wf {p : Option (List Nat × Option Nat)} {b : List Nat}
    (hwf : ∀ r e', p = some (r, e') → r.length % 2 = 0 ∧ r.length ≤ 16 ∧ ∀ x ∈ r, x < 256)
    (h : finishV6 p = some b) : b.length = 16 ∧ ∀ x ∈ b, x < 256 := by
  cases p with
  | none => simp [finishV6] at h
  | some pr =>
    obtain ⟨pre, ell⟩ := pr
    obtain ⟨heven, hlen, hb⟩ := hwf pre ell rfl
    simp only [finishV6] at h
    split_ifs at h with hlt
    · cases ell with
      | none => cases h
      | some e =>
        injection h with h
        subst h
        constructor
        · simp only [List.length_append, List.length_take, List.length_replicate,
            List.length_drop]
          omega
        · intro x hx
          rcases List.mem_append.mp hx with hx | hx
          · rcases List.mem_append.mp hx with hx | hx
            · exact hb x (List.mem_of_mem_take hx)
            · rw [List.eq_of_mem_replicate hx]; omega
          · exact hb x (List.mem_of_mem_drop hx)
    · cases ell with
      | none =>
        injection h with h
        subst h
        exact ⟨by omega, hb⟩
      | some e => cases h

theorem parseIPv6_wf {s : List Char} {b : List Nat} (h : parseIPv6 s = some b) :
    b.length = 16 ∧ ∀ x ∈ b, x < 256 := by
  unfold parseIPv6 at h
  split_ifs at h with h1 h2
  · injection h with h
    subst h
    refine ⟨by simp, ?_⟩
    intro x hx
    rw [List.eq_of_mem_replicate hx]
    omega
  · exact finishV6_wf (fun r e' hp =>
      parseV6Loop_wf 9 [] (some 0) (s.drop 2) r e' (by simp) (by simp)
        (by intro x hx; cases hx) hp) h
  · exact finishV6_wf (fun r e' hp =>
      parseV6Loop_wf 9 [] none s r e' (by simp) (by simp)
        (by intro x hx; cases hx) hp) h

theorem parseIP_wf {s : String} {b : List Nat} (h : parseIP s = some b) :
    b.length = 16 ∧ ∀ x ∈ b, x < 256 := by
  unfold parseIP at h
  cases hcl : classifyIP s.data with
  | none => rw [hcl] at h; cases h
  | some v =>
    rw [hcl] at h
    cases v with
    | true =>
      simp only [Option.map_eq_some'] at h
      obtain ⟨b4, hb4, rfl⟩ := h
      obtain ⟨hl4, hbb⟩ := parseIPv4_wf hb4
      constructor
      · simp [v4InV6, hl4]
      · intro x hx
        unfold v4InV6 at hx
        rcases List.mem_append.mp hx with hx | hx
        · rcases List.mem_append.mp hx with hx | hx
          · rw [List.eq_of_mem_replicate hx]; omega
          · rcases List.mem_cons.mp hx with hx | hx
            · omega
            · rw [List.mem_singleton.mp hx]; omega
        · exact hbb x hx
    | false => exact parseIPv6_wf h

/-! ## C9: MaskIP case equations and the IPv4 side of idempotence -/

theorem maskIP_eq_none {s : String} (hp : parseIP s = none) : MaskIP s = "" := by
  simp [MaskIP, hp]

theorem maskIP_eq_v4 {s : String} {b q : List Nat} (hp : parseIP s = some b)
    (ht : to4 b = some q) : MaskIP s = ipv4String (q.take 3 ++ [0]) ++ "/24" := by
  simp [MaskIP, hp, ht]

theorem maskIP_eq_v6 {s : String} {b : List Nat} (hp : parseIP s = some b)
    (ht : to4 b = none) :
    MaskIP s = ipv6String (b.take 8 ++ List.replicate 8 0) ++ "/64" := by
  simp [MaskIP, hp, ht]

theorem to4_eq_drop {b q : List Nat} (hlen : b.length = 16) (ht : to4 b = some q) :
    q = b.drop 12 ∧ q.length = 4 := by
  unfold to4 at ht
  rw [if_neg (by omega)] at ht
  split_ifs at ht with h2
  injection ht with ht
  subst ht
  exact ⟨rfl, by simp [hlen]⟩

theorem exists_four {l : List Nat} (h : l.length = 4) :
    ∃ a b c d, l = [a, b, c, d] := by
  rcases l with - | ⟨a, - | ⟨b, - | ⟨c, - | ⟨d, - | ⟨e, l⟩⟩⟩⟩⟩ <;>
    simp only [List.length_nil, List.length_cons] at h <;> try omega
  exact ⟨a, b, c, d, rfl⟩

theorem mk_append_mk (l m : List Char) : String.mk l ++ String.mk m = String.mk (l ++ m) :=
  rfl

theorem takeWhile_until_slash (l : List Char) (hl : ∀ c ∈ l, c ≠ '/') (t : List Char) :
    (l ++ '/' :: t).takeWhile (fun c => c ≠ '/') = l := by
  induction l with
  | nil => simp [List.takeWhile]
  | cons c cs ih =>
    rw [List.cons_append]
    rw [List.takeWhile_cons_of_pos (by simpa using hl c (List.mem_cons_self c cs))]
    rw [ih (fun c' hc' => hl c' (List.mem_cons_of_mem c hc'))]

theorem addrPortion_mk_slash (l : List Char) (hl : ∀ c ∈ l, c ≠ '/') (t : List Char) :
    addrPortion (String.mk (l ++ '/' :: t)) = String.mk l := by
  unfold addrPortion
  show String.mk ((l ++ '/' :: t).takeWhile (fun c => c ≠ '/')) = String.mk l
  rw [takeWhile_until_slash l hl t]

theorem v4Chars_no_slash (a b c d : Nat) (ha : a < 256) (hb : b < 256) (hc : c < 256)
    (hd : d < 256) : ∀ ch ∈ v4Chars a b c d, ch ≠ '/' := by
  intro ch hch
  unfold v4Chars at hch
  rcases List.mem_append.mp hch with h | h
  · exact (decOctet_not_special a ha ch h).2.2.2
  rcases List.mem_cons.mp h with h | h
  · subst h; decide
  rcases List.mem_append.mp h with h | h
  · exact (decOctet_not_special b hb ch h).2.2.2
  rcases List.mem_cons.mp h with h | h
  · subst h; decide
  rcases List.mem_append.mp h with h | h
  · exact (decOctet_not_special c hc ch h).2.2.2
  rcases List.mem_cons.mp h with h | h
  · subst h; decide
  · exact (decOctet_not_special d hd ch h).2.2.2

theorem ipv4String_eq_mk (a b c d : Nat) :
    ipv4String [a, b, c, d] = String.mk (v4Chars a b c d) := rfl

theorem maskIP_v4Chars_masked (q0 q1 q2 : Nat) (h0 : q0 < 256) (h1 : q1 < 256)
    (h2 : q2 < 256) :
    MaskIP (String.mk (v4Chars q0 q1 q2 0)) = ipv4String [q0, q1, q2, 0] ++ "/24" := by
  rw [maskIP_eq_v4 (parseIP_v4Chars q0 q1 q2 0 h0 h1 h2 (by omega))
    (to4_v4InV6 q0 q1 q2 0)]
  rfl

theorem maskIP_idem_v4 {s : String} {b q : List Nat} (hp : parseIP s = some b)
    (ht : to4 b = some q) : MaskIP (addrPortion (MaskIP s)) = MaskIP s := by
  obtain ⟨hlen, hbound⟩ := parseIP_wf hp
  obtain ⟨hqd, hql⟩ := to4_eq_drop hlen ht
  obtain ⟨q0, q1, q2, q3, hq⟩ := exists_four hql
  have hqb : ∀ x ∈ q, x < 256 := by
    intro x hx
    rw [hqd] at hx
    exact hbound x (List.mem_of_mem_drop hx)
  have h0 : q0 < 256 := hqb q0 (by rw [hq]; simp)
  have h1 : q1 < 256 := hqb q1 (by rw [hq]; simp)
  have h2 : q2 < 256 := hqb q2 (by rw [hq]; simp)
  have hmask : MaskIP s = String.mk (v4Chars q0 q1 q2 0) ++ "/24" := by
    rw [maskIP_eq_v4 hp ht, hq]
    rfl
  have haddr : addrPortion (MaskIP s) = String.mk (v4Chars q0 q1 q2 0) := by
    rw [hmask]
    have : String.mk (v4Chars q0 q1 q2 0) ++ "/24" =
        String.mk (v4Chars q0 q1 q2 0 ++ '/' :: ['2', '4']) := rfl
    rw [this, addrPortion_mk_slash _ (v4Chars_no_slash q0 q1 q2 0 h0 h1 h2 (by omega))]
  rw [haddr, maskIP_v4Chars_masked q0 q1 q2 h0 h1 h2, hmask]
  rfl

/-! ## C9: the IPv6 printer's hex groups and the parser's steps over them -/

theorem hexChars_ne_nil (g : Nat) : hexChars g ≠ [] := by
  unfold hexChars
  split_ifs <;> simp

theorem hexChars_digits (g : Nat) (hg : g < 65536) :
    ∀ c ∈ hexChars g, ∃ d, d < 16 ∧ c = hexDigitChar d := by
  unfold hexChars
  split_ifs with h1 h2 h3 <;> intro c hc <;>
    simp only [List.mem_cons, List.mem_singleton, List.not_mem_nil, or_false] at hc
  · exact ⟨g, h1, hc⟩
  · rcases hc with hc | hc
    · exact ⟨g / 16, by omega, hc⟩
    · exact ⟨g % 16, by omega, hc⟩
  · rcases hc with hc | hc | hc
    · exact ⟨g / 256, by omega, hc⟩
    · exact ⟨g / 16 % 16, by omega, hc⟩
    · exact ⟨g % 16, by omega, hc⟩
  · rcases hc with hc | hc | hc | hc
    · exact ⟨g / 4096, by omega, hc⟩
    · exact ⟨g / 256 % 16, by omega, hc⟩
    · exact ⟨g / 16 % 16, by omega, hc⟩
    · exact ⟨g % 16, by omega, hc⟩

theorem hexChars_not_special (g : Nat) (hg : g < 65536) :
    ∀ c ∈ hexChars g, c ≠ '.' ∧ c ≠ ':' ∧ c ≠ '%' ∧ c ≠ '/' := by
  intro c hc
  obtain ⟨d, hd, rfl⟩ := hexChars_digits g hg c hc
  exact (hexDigitChar_spec d hd).2

theorem takeHexDigits_stop (rest : List Char)
    (hrest : ∀ c t, rest = c :: t → hexDigitValue c = none) :
    takeHexDigits rest = ([], rest) := by
  cases rest with
  | nil => rfl
  | cons c t =>
    unfold takeHexDigits
    rw [hrest c t rfl]

theorem takeHexDigits_hexChars (g : Nat) (hg : g < 65536) (rest : List Char)
    (hrest : ∀ c t, rest = c :: t → hexDigitValue c = none) :
    ∃ ds, takeHexDigits (hexChars g ++ rest) = (ds, rest) ∧ ds ≠ [] ∧
      ds.length ≤ 4 ∧ ds.foldl (fun a d => a * 16 + d) 0 = g := by
  have hstop := takeHexDigits_stop rest hrest
  unfold hexChars
  split_ifs with h1 h2 h3
  · refine ⟨[g], ?_, by simp, by simp, by simp⟩
    simp only [List.cons_append, List.nil_append, takeHexDigits,
      (hexDigitChar_spec g h1).1]
    simp [hstop]
  · refine ⟨[g / 16, g % 16], ?_, by simp, by simp, by simp; omega⟩
    simp only [List.cons_append, List.nil_append, takeHexDigits,
      (hexDigitChar_spec (g / 16) (by omega : g / 16 < 16)).1,
      (hexDigitChar_spec (g % 16) (by omega : g % 16 < 16)).1]
    simp [hstop]
  · refine ⟨[g / 256, g / 16 % 16, g % 16], ?_, by simp, by simp, by simp; omega⟩
    simp only [List.cons_append, List.nil_append, takeHexDigits,
      (hexDigitChar_spec (g / 256) (by omega : g / 256 < 16)).1,
      (hexDigitChar_spec (g / 16 % 16) (by omega : g / 16 % 16 < 16)).1,
      (hexDigitChar_spec (g % 16) (by omega : g % 16 < 16)).1]
    simp [hstop]
  · refine ⟨[g / 4096, g / 256 % 16, g / 16 % 16, g % 16], ?_, by simp, by simp,
      by simp; omega⟩
    simp only [List.cons_append, List.nil_append, takeHexDigits,
      (hexDigitChar_spec (g / 4096) (by omega : g / 4096 < 16)).1,
      (hexDigitChar_spec (g / 256 % 16) (by omega : g / 256 % 16 < 16)).1,
      (hexDigitChar_spec (g / 16 % 16) (by omega : g / 16 % 16 < 16)).1,
      (hexDigitChar_spec (g % 16) (by omega : g % 16 < 16)).1]
    simp [hstop]

theorem parseV6Loop_step (fuel : Nat) (pre : List Nat) (ell : Option Nat) (g : Nat)
    (hg : g < 65536) (rest : List Char) (hpre : pre.length ≤ 12)
    (hr1 : rest ≠ []) (hr2 : rest.head? ≠ some ':') :
    parseV6Loop (fuel + 1) pre ell (hexChars g ++ ':' :: rest) =
      parseV6Loop fuel (pre ++ [g / 256, g % 256]) ell rest := by
  obtain ⟨ds, htd, hne, hlen4, hfold⟩ := takeHexDigits_hexChars g hg (':' :: rest)
    (by intro c t h; injection h with h1 h2; subst h1; decide)
  simp only [parseV6Loop, htd, hfold]
  rw [if_neg (by omega), if_neg (by simpa using hne), if_neg (by omega),
    if_neg (by simp), if_neg (by simp), if_pos (by simp)]
  simp only [List.drop_one, List.tail_cons]
  rw [if_neg hr1, if_neg hr2]

theorem parseV6Loop_last (fuel : Nat) (pre : List Nat) (g : Nat) (hg : g < 65536)
    (hpre : pre.length ≤ 12) :
    parseV6Loop (fuel + 1) pre none (hexChars g ++ [':', ':']) =
      some (pre ++ [g / 256, g % 256], some (pre.length + 2)) := by
  obtain ⟨ds, htd, hne, hlen4, hfold⟩ := takeHexDigits_hexChars g hg [':', ':']
    (by intro c t h; injection h with h1 h2; subst h1; decide)
  simp only [parseV6Loop, htd, hfold]
  rw [if_neg (show ¬ 16 ≤ pre.length by omega), if_neg hne,
    if_neg (show ¬ 4 < ds.length by omega),
    if_neg (show ¬ ([':', ':'].head? = some '.') by decide),
    if_neg (show ¬ (([':', ':'] : List Char) = []) by decide),
    if_pos (show ([':', ':'].head? = some ':') by decide),
    if_neg (show ¬ (List.drop 1 ([':', ':'] : List Char) = []) by decide),
    if_pos (show (List.drop 1 ([':', ':'] : List Char)).head? = some ':' by decide),
    if_neg (show ¬ ((none : Option Nat).isSome = true) by decide),
    if_pos (show List.drop 2 ([':', ':'] : List Char) = [] by decide)]
  simp

/-! ## C9: the zero-run scan on /64-masked group lists -/

theorem bestRun_m0 : bestZeroRunAux [0, 0, 0, 0, 0, 0, 0, 0] 0 (0, 0) = (0, 8) := by
  decide

theorem bestRun_m1 (g0 : Nat) (hg0 : g0 ≠ 0) :
    bestZeroRunAux [g0, 0, 0, 0, 0, 0, 0, 0] 0 (0, 0) = (1, 8) := by
  simp [bestZeroRunAux, zeroRunLen, hg0]

theorem bestRun_m2 (g0 g1 : Nat) (hg1 : g1 ≠ 0) :
    bestZeroRunAux [g0, g1, 0, 0, 0, 0, 0, 0] 0 (0, 0) = (2, 8) := by
  rcases eq_or_ne g0 0 with rfl | hg0 <;> simp [bestZeroRunAux, zeroRunLen, *]

theorem bestRun_m3 (g0 g1 g2 : Nat) (hg2 : g2 ≠ 0) :
    bestZeroRunAux [g0, g1, g2, 0, 0, 0, 0, 0] 0 (0, 0) = (3, 8) := by
  rcases eq_or_ne g0 0 with rfl | hg0 <;> rcases eq_or_ne g1 0 with rfl | hg1 <;>
    simp [bestZeroRunAux, zeroRunLen, *]

theorem bestRun_m4 (g0 g1 g2 g3 : Nat) (hg3 : g3 ≠ 0) :
    bestZeroRunAux [g0, g1, g2, g3, 0, 0, 0, 0] 0 (0, 0) = (4, 8) := by
  rcases eq_or_ne g0 0 with rfl | hg0 <;> rcases eq_or_ne g1 0 with rfl | hg1 <;>
    rcases eq_or_ne g2 0 with rfl | hg2 <;> simp [bestZeroRunAux, zeroRunLen, *]

/-! ## C9: shape facts about the masked byte list -/

theorem bytesToGroups_masked (g0 g1 g2 g3 : Nat) :
    bytesToGroups (v6MaskedBytes g0 g1 g2 g3) = [g0, g1, g2, g3, 0, 0, 0, 0] := by
  show bytesToGroups [g0 / 256, g0 % 256, g1 / 256, g1 % 256, g2 / 256, g2 % 256,
    g3 / 256, g3 % 256, 0, 0, 0, 0, 0, 0, 0, 0] = _
  simp only [bytesToGroups, List.cons.injEq, and_true]
  omega

theorem to4_masked_none (g0 g1 g2 g3 : Nat) :
    to4 (v6MaskedBytes g0 g1 g2 g3) = none := by
  unfold to4
  rw [if_neg (by show ¬ (v6MaskedBytes g0 g1 g2 g3).length = 4; simp [v6MaskedBytes]),
    if_neg ?_]
  rintro ⟨-, htk⟩
  have hcomp : List.take 12 (v6MaskedBytes g0 g1 g2 g3) =
      [g0 / 256, g0 % 256, g1 / 256, g1 % 256, g2 / 256, g2 % 256, g3 / 256, g3 % 256,
        0, 0, 0, 0] := rfl
  rw [hcomp] at htk
  have hrep : List.replicate 10 (0 : Nat) ++ [255, 255] =
      [0, 0, 0, 0, 0, 0, 0, 0, 0, 0, 255, 255] := rfl
  rw [hrep] at htk
  simp at htk

theorem take8_masked (g0 g1 g2 g3 : Nat) :
    List.take 8 (v6MaskedBytes g0 g1 g2 g3) ++ List.replicate 8 0 =
      v6MaskedBytes g0 g1 g2 g3 := rfl

theorem exists_eight {l : List Nat} (h : l.length = 8) :
    ∃ a b c d e f g k, l = [a, b, c, d, e, f, g, k] := by
  rcases l with - | ⟨a, - | ⟨b, - | ⟨c, - | ⟨d, - | ⟨e, - | ⟨f, - | ⟨g, - | ⟨k, - | ⟨x, l⟩⟩⟩⟩⟩⟩⟩⟩⟩ <;>
    simp only [List.length_nil, List.length_cons] at h <;> try omega
  exact ⟨a, b, c, d, e, f, g, k, rfl⟩

/-! ## C9: parsing the printed masked IPv6 strings -/

theorem hexChars_cons (g : Nat) (hg : g < 65536) :
    ∃ c cs, hexChars g = c :: cs ∧ c ≠ ':' := by
  cases hx : hexChars g with
  | nil => exact absurd hx (hexChars_ne_nil g)
  | cons c cs =>
    refine ⟨c, cs, rfl, ?_⟩
    exact (hexChars_not_special g hg c (hx ▸ List.mem_cons_self c cs)).2.1

theorem hex_append_props (g : Nat) (hg : g < 65536) (X : List Char) :
    hexChars g ++ X ≠ [] ∧ (hexChars g ++ X).head? ≠ some ':' := by
  obtain ⟨c, cs, hcons, hc⟩ := hexChars_cons g hg
  rw [hcons]
  refine ⟨by simp, ?_⟩
  simp only [List.cons_append, List.head?_cons, ne_eq, Option.some.injEq]
  exact hc

theorem parseIPv6_hexhead (g : Nat) (hg : g < 65536) (rest : List Char) :
    parseIPv6 (hexChars g ++ rest) = finishV6 (parseV6Loop 9 [] none (hexChars g ++ rest)) := by
  obtain ⟨c, cs, hcons, hc⟩ := hexChars_cons g hg
  unfold parseIPv6
  rw [if_neg ?_]
  rintro ⟨-, htk⟩
  rw [hcons] at htk
  simp only [List.cons_append, List.take_succ_cons, List.cons.injEq] at htk
  exact hc htk.1

theorem no_slash_hex_append (g : Nat) (hg : g < 65536) (X : List Char)
    (hX : ∀ c ∈ X, c ≠ '/') : ∀ c ∈ hexChars g ++ X, c ≠ '/' := by
  intro c hc
  rcases List.mem_append.mp hc with h | h
  · exact (hexChars_not_special g hg c h).2.2.2
  · exact hX c h

theorem no_slash_colon_cons (X : List Char) (hX : ∀ c ∈ X, c ≠ '/') :
    ∀ c ∈ ':' :: X, c ≠ '/' := by
  intro c hc
  rcases List.mem_cons.mp hc with h | h
  · subst h; decide
  · exact hX c h

theorem classify_hex_colon (g : Nat) (hg : g < 65536) (R : List Char) :
    classifyIP (hexChars g ++ ':' :: R) = some false := by
  rw [classifyIP_skip (hexChars g) (fun c hc => ⟨(hexChars_not_special g hg c hc).1,
    (hexChars_not_special g hg c hc).2.1, (hexChars_not_special g hg c hc).2.2.1⟩)]
  simp [classifyIP]

theorem maskIP_masked_close (g0 g1 g2 g3 : Nat) (L : List Char)
    (hstr : ipv6String (v6MaskedBytes g0 g1 g2 g3) = String.mk L)
    (hnoslash : ∀ c ∈ L, c ≠ '/')
    (hparse : parseIP (String.mk L) = some (v6MaskedBytes g0 g1 g2 g3)) :
    MaskIP (addrPortion (ipv6String (v6MaskedBytes g0 g1 g2 g3) ++ "/64")) =
      ipv6String (v6MaskedBytes g0 g1 g2 g3) ++ "/64" := by
  rw [hstr]
  rw [show String.mk L ++ "/64" = String.mk (L ++ '/' :: ['6', '4']) from rfl,
    addrPortion_mk_slash L hnoslash]
  rw [maskIP_eq_v6 hparse (to4_masked_none g0 g1 g2 g3), take8_masked, hstr]
  rfl

theorem roundtrip_m0 :
    MaskIP (addrPortion (ipv6String (v6MaskedBytes 0 0 0 0) ++ "/64")) =
      ipv6String (v6MaskedBytes 0 0 0 0) ++ "/64" := by
  refine maskIP_masked_close 0 0 0 0 [':', ':'] ?_ (by decide) ?_
  · simp only [ipv6String]
    rw [bytesToGroups_masked, bestRun_m0]
    rfl
  · rfl

theorem roundtrip_m4 (g0 g1 g2 g3 : Nat) (h0 : g0 < 65536) (h1 : g1 < 65536)
    (h2 : g2 < 65536) (h3 : g3 < 65536) (hg3 : g3 ≠ 0) :
    MaskIP (addrPortion (ipv6String (v6MaskedBytes g0 g1 g2 g3) ++ "/64")) =
      ipv6String (v6MaskedBytes g0 g1 g2 g3) ++ "/64" := by
  refine maskIP_masked_close g0 g1 g2 g3
    (hexChars g0 ++ ':' :: (hexChars g1 ++ ':' :: (hexChars g2 ++ ':' ::
      (hexChars g3 ++ [':', ':'])))) ?_ ?_ ?_
  · simp only [ipv6String]
    rw [bytesToGroups_masked, bestRun_m4 g0 g1 g2 g3 hg3]
    rw [if_neg (by norm_num)]
    refine congrArg String.mk ?_
    show (hexChars g0 ++ ':' :: (hexChars g1 ++ ':' :: (hexChars g2 ++ ':' :: hexChars g3)))
      ++ ':' :: ':' :: [] = _
    simp [List.append_assoc]
  · exact no_slash_hex_append g0 h0 _ (no_slash_colon_cons _
      (no_slash_hex_append g1 h1 _ (no_slash_colon_cons _
        (no_slash_hex_append g2 h2 _ (no_slash_colon_cons _
          (no_slash_hex_append g3 h3 _ (by decide)))))))
  · unfold parseIP
    rw [show (String.mk (hexChars g0 ++ ':' :: (hexChars g1 ++ ':' :: (hexChars g2 ++ ':' ::
        (hexChars g3 ++ [':', ':']))))).data =
      hexChars g0 ++ ':' :: (hexChars g1 ++ ':' :: (hexChars g2 ++ ':' ::
        (hexChars g3 ++ [':', ':']))) from rfl]
    rw [classify_hex_colon g0 h0]
    show parseIPv6 (hexChars g0 ++ ':' :: (hexChars g1 ++ ':' :: (hexChars g2 ++ ':' ::
      (hexChars g3 ++ [':', ':'])))) = _
    rw [parseIPv6_hexhead g0 h0]
    have p1 := hex_append_props g1 h1 (':' :: (hexChars g2 ++ ':' :: (hexChars g3 ++ [':', ':'])))
    have p2 := hex_append_props g2 h2 (':' :: (hexChars g3 ++ [':', ':']))
    have p3 := hex_append_props g3 h3 [':', ':']
    have s1 : parseV6Loop 9 [] none (hexChars g0 ++ ':' :: (hexChars g1 ++ ':' ::
        (hexChars g2 ++ ':' :: (hexChars g3 ++ [':', ':'])))) =
        parseV6Loop 8 [g0 / 256, g0 % 256] none (hexChars g1 ++ ':' ::
          (hexChars g2 ++ ':' :: (hexChars g3 ++ [':', ':']))) :=
      parseV6Loop_step 8 [] none g0 h0 _ (by simp) p1.1 p1.2
    have s2 : parseV6Loop 8 [g0 / 256, g0 % 256] none (hexChars g1 ++ ':' ::
        (hexChars g2 ++ ':' :: (hexChars g3 ++ [':', ':']))) =
        parseV6Loop 7 [g0 / 256, g0 % 256, g1 / 256, g1 % 256] none
          (hexChars g2 ++ ':' :: (hexChars g3 ++ [':', ':'])) :=
      parseV6Loop_step 7 [g0 / 256, g0 % 256] none g1 h1 _ (by simp) p2.1 p2.2
    have s3 : parseV6Loop 7 [g0 / 256, g0 % 256, g1 / 256, g1 % 256] none
        (hexChars g2 ++ ':' :: (hexChars g3 ++ [':', ':'])) =
        parseV6Loop 6 [g0 / 256, g0 % 256, g1 / 256, g1 % 256, g2 / 256, g2 % 256] none
          (hexChars g3 ++ [':', ':']) :=
      parseV6Loop_step 6 [g0 / 256, g0 % 256, g1 / 256, g1 % 256] none g2 h2 _ (by simp)
        p3.1 p3.2
    have s4 : parseV6Loop 6 [g0 / 256, g0 % 256, g1 / 256, g1 % 256, g2 / 256, g2 % 256] none
        (hexChars g3 ++ [':', ':']) =
        some ([g0 / 256, g0 % 256, g1 / 256, g1 % 256, g2 / 256, g2 % 256, g3 / 256,
          g3 % 256], some 8) :=
      parseV6Loop_last 5 [g0 / 256, g0 % 256, g1 / 256, g1 % 256, g2 / 256, g2 % 256] g3 h3
        (by simp)
    rw [s1, s2, s3, s4]
    rfl

theorem roundtrip_m1 (g0 : Nat) (h0 : g0 < 65536) (hg0 : g0 ≠ 0) :
    MaskIP (addrPortion (ipv6String (v6MaskedBytes g0 0 0 0) ++ "/64")) =
      ipv6String (v6MaskedBytes g0 0 0 0) ++ "/64" := by
  refine maskIP_masked_close g0 0 0 0 (hexChars g0 ++ [':', ':']) ?_ ?_ ?_
  · simp only [ipv6String]
    rw [bytesToGroups_masked, bestRun_m1 g0 hg0]
    rw [if_neg (by norm_num)]
    rfl
  · exact no_slash_hex_append g0 h0 _ (by decide)
  · unfold parseIP
    rw [show (String.mk (hexChars g0 ++ [':', ':'])).data = hexChars g0 ++ [':', ':']
      from rfl]
    rw [show (hexChars g0 ++ [':', ':'] : List Char) = hexChars g0 ++ ':' :: [':'] from rfl,
      classify_hex_colon g0 h0]
    show parseIPv6 (hexChars g0 ++ [':', ':']) = _
    rw [parseIPv6_hexhead g0 h0]
    have s1 : parseV6Loop 9 [] none (hexChars g0 ++ [':', ':']) =
        some ([g0 / 256, g0 % 256], some 2) := parseV6Loop_last 8 [] g0 h0 (by simp)
    rw [s1]
    rfl

theorem roundtrip_m2 (g0 g1 : Nat) (h0 : g0 < 65536) (h1 : g1 < 65536) (hg1 : g1 ≠ 0) :
    MaskIP (addrPortion (ipv6String (v6MaskedBytes g0 g1 0 0) ++ "/64")) =
      ipv6String (v6MaskedBytes g0 g1 0 0) ++ "/64" := by
  refine maskIP_masked_close g0 g1 0 0
    (hexChars g0 ++ ':' :: (hexChars g1 ++ [':', ':'])) ?_ ?_ ?_
  · simp only [ipv6String]
    rw [bytesToGroups_masked, bestRun_m2 g0 g1 hg1]
    rw [if_neg (by norm_num)]
    refine congrArg String.mk ?_
    show (hexChars g0 ++ ':' :: hexChars g1) ++ ':' :: ':' :: [] = _
    simp [List.append_assoc]
  · exact no_slash_hex_append g0 h0 _ (no_slash_colon_cons _
      (no_slash_hex_append g1 h1 _ (by decide)))
  · unfold parseIP
    rw [show (String.mk (hexChars g0 ++ ':' :: (hexChars g1 ++ [':', ':']))).data =
      hexChars g0 ++ ':' :: (hexChars g1 ++ [':', ':']) from rfl]
    rw [classify_hex_colon g0 h0]
    show parseIPv6 (hexChars g0 ++ ':' :: (hexChars g1 ++ [':', ':'])) = _
    rw [parseIPv6_hexhead g0 h0]
    have p1 := hex_append_props g1 h1 [':', ':']
    have s1 : parseV6Loop 9 [] none (hexChars g0 ++ ':' :: (hexChars g1 ++ [':', ':'])) =
        parseV6Loop 8 [g0 / 256, g0 % 256] none (hexChars g1 ++ [':', ':']) :=
      parseV6Loop_step 8 [] none g0 h0 _ (by simp) p1.1 p1.2
    have s2 : parseV6Loop 8 [g0 / 256, g0 % 256] none (hexChars g1 ++ [':', ':']) =
        some ([g0 / 256, g0 % 256, g1 / 256, g1 % 256], some 4) :=
      parseV6Loop_last 7 [g0 / 256, g0 % 256] g1 h1 (by simp)
    rw [s1, s2]
    rfl

theorem roundtrip_m3 (g0 g1 g2 : Nat) (h0 : g0 < 65536) (h1 : g1 < 65536)
    (h2 : g2 < 65536) (hg2 : g2 ≠ 0) :
    MaskIP (addrPortion (ipv6String (v6MaskedBytes g0 g1 g2 0) ++ "/64")) =
      ipv6String (v6MaskedBytes g0 g1 g2 0) ++ "/64" := by
  refine maskIP_masked_close g0 g1 g2 0
    (hexChars g0 ++ ':' :: (hexChars g1 ++ ':' :: (hexChars g2 ++ [':', ':']))) ?_ ?_ ?_
  · simp only [ipv6String]
    rw [bytesToGroups_masked, bestRun_m3 g0 g1 g2 hg2]
    rw [if_neg (by norm_num)]
    refine congrArg String.mk ?_
    show (hexChars g0 ++ ':' :: (hexChars g1 ++ ':' :: hexChars g2)) ++ ':' :: ':' :: [] = _
    simp [List.append_assoc]
  · exact no_slash_hex_append g0 h0 _ (no_slash_colon_cons _
      (no_slash_hex_append g1 h1 _ (no_slash_colon_cons _
        (no_slash_hex_append g2 h2 _ (by decide)))))
  · unfold parseIP
    rw [show (String.mk (hexChars g0 ++ ':' :: (hexChars g1 ++ ':' ::
        (hexChars g2 ++ [':', ':'])))).data =
      hexChars g0 ++ ':' :: (hexChars g1 ++ ':' :: (hexChars g2 ++ [':', ':'])) from rfl]
    rw [classify_hex_colon g0 h0]
    show parseIPv6 (hexChars g0 ++ ':' :: (hexChars g1 ++ ':' ::
      (hexChars g2 ++ [':', ':']))) = _
    rw [parseIPv6_hexhead g0 h0]
    have p1 := hex_append_props g1 h1 (':' :: (hexChars g2 ++ [':', ':']))
    have p2 := hex_append_props g2 h2 [':', ':']
    have s1 : parseV6Loop 9 [] none (hexChars g0 ++ ':' :: (hexChars g1 ++ ':' ::
        (hexChars g2 ++ [':', ':']))) =
        parseV6Loop 8 [g0 / 256, g0 % 256] none (hexChars g1 ++ ':' ::
          (hexChars g2 ++ [':', ':'])) :=
      parseV6Loop_step 8 [] none g0 h0 _ (by simp) p1.1 p1.2
    have s2 : parseV6Loop 8 [g0 / 256, g0 % 256] none (hexChars g1 ++ ':' ::
        (hexChars g2 ++ [':', ':'])) =
        parseV6Loop 7 [g0 / 256, g0 % 256, g1 / 256, g1 % 256] none
          (hexChars g2 ++ [':', ':']) :=
      parseV6Loop_step 7 [g0 / 256, g0 % 256] none g1 h1 _ (by simp) p2.1 p2.2
    have s3 : parseV6Loop 7 [g0 / 256, g0 % 256, g1 / 256, g1 % 256] none
        (hexChars g2 ++ [':', ':']) =
        some ([g0 / 256, g0 % 256, g1 / 256, g1 % 256, g2 / 256, g2 % 256], some 6) :=
      parseV6Loop_last 6 [g0 / 256, g0 % 256, g1 / 256, g1 % 256] g2 h2 (by simp)
    rw [s1, s2, s3]
    rfl

theorem masked_v6_roundtrip (g0 g1 g2 g3 : Nat) (h0 : g0 < 65536) (h1 : g1 < 65536)
    (h2 : g2 < 65536) (h3 : g3 < 65536) :
    MaskIP (addrPortion (ipv6String (v6MaskedBytes g0 g1 g2 g3) ++ "/64")) =
      ipv6String (v6MaskedBytes g0 g1 g2 g3) ++ "/64" := by
  rcases eq_or_ne g3 0 with rfl | hg3
  · rcases eq_or_ne g2 0 with rfl | hg2
    · rcases eq_or_ne g1 0 with rfl | hg1
      · rcases eq_or_ne g0 0 with rfl | hg0
        · exact roundtrip_m0
        · exact roundtrip_m1 g0 h0 hg0
      · exact roundtrip_m2 g0 g1 h0 h1 hg1
    · exact roundtrip_m3 g0 g1 g2 h0 h1 h2 hg2
  · exact roundtrip_m4 g0 g1 g2 g3 h0 h1 h2 h3 hg3

theorem maskIP_idem_v6 {s : String} {b : List Nat} (hp : parseIP s = some b)
    (ht : to4 b = none) : MaskIP (addrPortion (MaskIP s)) = MaskIP s := by
  obtain ⟨hlen, hbound⟩ := parseIP_wf hp
  obtain ⟨B0, B1, B2, B3, B4, B5, B6, B7, htake⟩ :=
    exists_eight (show (b.take 8).length = 8 by simp [hlen])
  have hBmem : ∀ x ∈ b.take 8, x < 256 := fun x hx => hbound x (List.mem_of_mem_take hx)
  rw [htake] at hBmem
  have hB0 : B0 < 256 := hBmem B0 (by simp)
  have hB1 : B1 < 256 := hBmem B1 (by simp)
  have hB2 : B2 < 256 := hBmem B2 (by simp)
  have hB3 : B3 < 256 := hBmem B3 (by simp)
  have hB4 : B4 < 256 := hBmem B4 (by simp)
  have hB5 : B5 < 256 := hBmem B5 (by simp)
  have hB6 : B6 < 256 := hBmem B6 (by simp)
  have hB7 : B7 < 256 := hBmem B7 (by simp)
  have hmb : b.take 8 ++ List.replicate 8 0 =
      v6MaskedBytes (B0 * 256 + B1) (B2 * 256 + B3) (B4 * 256 + B5) (B6 * 256 + B7) := by
    rw [htake]
    show _ = [(B0 * 256 + B1) / 256, (B0 * 256 + B1) % 256, (B2 * 256 + B3) / 256,
      (B2 * 256 + B3) % 256, (B4 * 256 + B5) / 256, (B4 * 256 + B5) % 256,
      (B6 * 256 + B7) / 256, (B6 * 256 + B7) % 256] ++ List.replicate 8 0
    simp only [List.cons_append, List.nil_append, List.cons.injEq, and_true]
    omega
  rw [maskIP_eq_v6 hp ht, hmb]
  exact masked_v6_roundtrip _ _ _ _ (by omega) (by omega) (by omega) (by omega)

/-- C9: `MaskIP` returns, for a parseable IPv4 address (an address whose
16-byte form `To4` recognizes as IPv4), the dotted-quad of its bytes with
the low 8 bits zeroed followed by exactly `"/24"` — so the address portion
always ends in `".0"`; for a parseable IPv6 address, the Go-style text of
the address with its low 64 bits zeroed followed by exactly `"/64"`; and
the empty string for unparseable input.  `MaskIP` is idempotent: applying
it to the address portion of any of its own non-empty outputs yields the
same prefix string. -/
theorem maskIP_mask_and_idempotent (s : String) :
    (parseIP s = none → MaskIP s = "") ∧
    (∀ b q, parseIP s = some b → to4 b = some q →
      MaskIP s = ipv4String (q.take 3 ++ [0]) ++ "/24" ∧
      ∃ t, MaskIP s = t ++ ".0/24") ∧
    (∀ b, parseIP s = some b → to4 b = none →
      MaskIP s = ipv6String (b.take 8 ++ List.replicate 8 0) ++ "/64") ∧
    (MaskIP s ≠ "" → MaskIP (addrPortion (MaskIP s)) = MaskIP s) := by
  refine ⟨maskIP_eq_none, ?_, fun b hp ht => maskIP_eq_v6 hp ht, ?_⟩
  · intro b q hp ht
    refine ⟨maskIP_eq_v4 hp ht, ?_⟩
    obtain ⟨hlen, -⟩ := parseIP_wf hp
    obtain ⟨-, hql⟩ := to4_eq_drop hlen ht
    obtain ⟨q0, q1, q2, q3, rfl⟩ := exists_four hql
    refine ⟨String.mk (decOctet q0 ++ ('.' :: (decOctet q1 ++ ('.' :: decOctet q2)))), ?_⟩
    rw [maskIP_eq_v4 hp ht]
    show String.mk (v4Chars q0 q1 q2 0) ++ "/24" = _
    refine String.ext ?_
    rw [String.data_append, String.data_append]
    rw [show ("/24" : String).data = ['/', '2', '4'] from rfl,
      show (".0/24" : String).data = ['.', '0', '/', '2', '4'] from rfl]
    show v4Chars q0 q1 q2 0 ++ ['/', '2', '4'] = _
    unfold v4Chars
    rw [show decOctet 0 = ['0'] from rfl]
    simp [List.append_assoc]
  · intro hne
    cases hp : parseIP s with
    | none => exact absurd (maskIP_eq_none hp) hne
    | some b =>
      cases ht : to4 b with
      | none => exact maskIP_idem_v6 hp ht
      | some q => exact maskIP_idem_v4 hp ht

end GoGeoGuard
